import Mathlib

/-!
Shallow embedding of the nordisk_shopify_sync repository (src/streamlit_app.py,
src/update_app.py, src/copy_product_meta_fields.py, src/copy_product_meta.py)
and proofs about its metafield copy/sync engine.

Modelling conventions:
* Python values flowing through metafield coercion are modelled by `PyVal`
  (None, str, int, float-as-rational, bool, list, dict).
* `json.loads` from the Python standard library is modelled by `jsonParse`,
  a total recursive-descent parser returning `none` where `json.loads` raises.
* Remote state (a product's or variant's metafield set) is modelled as a
  partial map from (namespace, key) pairs to metafields, which is exactly the
  dictionary `_product_metafield_map` builds; the remote API's documented
  invariant that (owner, namespace, key) is unique justifies the map view.
* Remote writes always succeed in the model (the remote accepts the payload);
  the write operations issued are recorded explicitly so that "no write
  happens" and "this write is an update, not a create" are provable facts.
* `time.sleep` calls and Streamlit UI calls have no observable effect on the
  data flow and are dropped.
-/

namespace NordiskSync

/-- Python runtime values as they appear in the metafield code paths:
`None`, `str`, `int`, `float` (modelled as a rational; no theorem below
depends on floating-point rounding), `bool`, `list`, `dict`. -/
inductive PyVal : Type where
  | pynone : PyVal
  | pystr (s : String) : PyVal
  | pyint (n : Int) : PyVal
  | pyfloat (q : Rat) : PyVal
  | pybool (b : Bool) : PyVal
  | pylist (xs : List PyVal) : PyVal
  | pydict (xs : List (String × PyVal)) : PyVal

/-! ### A model of Python's `json.loads`

A fuel-indexed recursive-descent JSON parser.  It returns `none` exactly
where `json.loads` would raise (invalid syntax or trailing garbage).  As in
Python, `true`/`false`/`null` become `bool`/`None`, numbers without a
fractional part or exponent become `int`, others `float`, strings become
`str`, arrays `list`, objects `dict`. -/

def jsonWs (c : Char) : Bool :=
  c = ' ' || c = '\t' || c = '\n' || c = '\r'

def skipWs : List Char → List Char
  | [] => []
  | c :: cs => if jsonWs c then skipWs cs else c :: cs

def parseLit : List Char → List Char → Option (List Char)
  | [], cs => some cs
  | _ :: _, [] => none
  | l :: ls, c :: cs => if c = l then parseLit ls cs else none

def isHexDigit (c : Char) : Bool :=
  c.isDigit || ('a' ≤ c && c ≤ 'f') || ('A' ≤ c && c ≤ 'F')

def hexVal (c : Char) : Nat :=
  if c.isDigit then c.toNat - '0'.toNat
  else if 'a' ≤ c && c ≤ 'f' then c.toNat - 'a'.toNat + 10
  else c.toNat - 'A'.toNat + 10

/-- Scan the inside of a JSON string literal up to the closing quote,
decoding the standard escapes. -/
def parseJStringAux : List Char → Option (List Char × List Char)
  | [] => none
  | '"' :: rest => some ([], rest)
  | '\\' :: rest =>
    match rest with
    | [] => none
    | e :: rest2 =>
      if e = 'u' then
        match rest2 with
        | a :: b :: c :: d :: rest3 =>
          if isHexDigit a && isHexDigit b && isHexDigit c && isHexDigit d then
            match parseJStringAux rest3 with
            | some (s, r) =>
              some (Char.ofNat (((hexVal a * 16 + hexVal b) * 16 + hexVal c) * 16 + hexVal d) :: s, r)
            | none => none
          else none
        | _ => none
      else
        let dec : Option Char :=
          if e = '"' then some '"'
          else if e = '\\' then some '\\'
          else if e = '/' then some '/'
          else if e = 'n' then some '\n'
          else if e = 't' then some '\t'
          else if e = 'r' then some '\r'
          else if e = 'b' then some (Char.ofNat 8)
          else if e = 'f' then some (Char.ofNat 12)
          else none
        match dec with
        | none => none
        | some ch =>
          match parseJStringAux rest2 with
          | some (s, r) => some (ch :: s, r)
          | none => none
  | c :: rest =>
    match parseJStringAux rest with
    | some (s, r) => some (c :: s, r)
    | none => none

def takeDigits : List Char → List Char × List Char
  | [] => ([], [])
  | c :: cs =>
    if c.isDigit then
      let (ds, rest) := takeDigits cs
      (c :: ds, rest)
    else ([], c :: cs)

def digitsToNat (ds : List Char) : Nat :=
  ds.foldl (fun acc c => acc * 10 + (c.toNat - '0'.toNat)) 0

/-- Parse a JSON number.  Returns the value (int when there is no fractional
part or exponent, float otherwise, as in Python) and the remaining input. -/
def parseJNumber (cs : List Char) : Option (PyVal × List Char) :=
  let (negSign, cs1) :=
    match cs with
    | '-' :: rest => (true, rest)
    | _ => (false, cs)
  let (intDs, cs2) := takeDigits cs1
  if intDs = [] then none
  else
    let (fracDs, cs3, hasFrac) :=
      match cs2 with
      | '.' :: rest =>
        let (ds, r) := takeDigits rest
        (ds, r, true)
      | _ => ([], cs2, false)
    if hasFrac && fracDs = [] then none
    else
      let (expVal, cs4, hasExp, expOk) :=
        match cs3 with
        | e :: rest =>
          if e = 'e' || e = 'E' then
            let (negE, rest1) :=
              match rest with
              | '-' :: r => (true, r)
              | '+' :: r => (false, r)
              | _ => (false, rest)
            let (eds, r2) := takeDigits rest1
            if eds = [] then ((0 : Int), cs3, true, false)
            else ((if negE then -(digitsToNat eds : Int) else (digitsToNat eds : Int)), r2, true, true)
          else ((0 : Int), cs3, false, true)
        | [] => ((0 : Int), cs3, false, true)
      if !expOk then none
      else
        let mantissa : Int := (digitsToNat intDs * 10 ^ fracDs.length + digitsToNat fracDs : Nat)
        let signed : Int := if negSign then -mantissa else mantissa
        if hasFrac || hasExp then
          some (.pyfloat ((signed : Rat) / (10 : Rat) ^ (fracDs.length : Nat) * (10 : Rat) ^ (expVal : Int)), cs4)
        else
          some (.pyint signed, cs4)

mutual

/-- One JSON value (fuel-indexed). -/
def parseJValue : Nat → List Char → Option (PyVal × List Char)
  | 0, _ => none
  | f + 1, cs =>
    match skipWs cs with
    | [] => none
    | c :: rest =>
      if c = 'n' then (parseLit ['u', 'l', 'l'] rest).map (fun r => (.pynone, r))
      else if c = 't' then (parseLit ['r', 'u', 'e'] rest).map (fun r => (.pybool true, r))
      else if c = 'f' then (parseLit ['a', 'l', 's', 'e'] rest).map (fun r => (.pybool false, r))
      else if c = '"' then
        match parseJStringAux rest with
        | some (s, r) => some (.pystr (String.mk s), r)
        | none => none
      else if c = '[' then
        match skipWs rest with
        | ']' :: r => some (.pylist [], r)
        | r => (parseJElems f r).map (fun (xs, r') => (.pylist xs, r'))
      else if c = '\x7b' then
        match skipWs rest with
        | '\x7d' :: r => some (.pydict [], r)
        | r => (parseJMembers f r).map (fun (xs, r') => (.pydict xs, r'))
      else parseJNumber (c :: rest)

/-- Comma-separated JSON array elements followed by `]` (fuel-indexed). -/
def parseJElems : Nat → List Char → Option (List PyVal × List Char)
  | 0, _ => none
  | f + 1, cs =>
    match parseJValue f cs with
    | none => none
    | some (v, rest) =>
      match skipWs rest with
      | ',' :: r => (parseJElems f r).map (fun (xs, r') => (v :: xs, r'))
      | ']' :: r => some ([v], r)
      | _ => none

/-- Comma-separated JSON object members followed by the closing brace
(fuel-indexed). -/
def parseJMembers : Nat → List Char → Option (List (String × PyVal) × List Char)
  | 0, _ => none
  | f + 1, cs =>
    match skipWs cs with
    | '"' :: rest =>
      match parseJStringAux rest with
      | none => none
      | some (k, rest1) =>
        match skipWs rest1 with
        | ':' :: rest2 =>
          match parseJValue f rest2 with
          | none => none
          | some (v, rest3) =>
            match skipWs rest3 with
            | ',' :: r => (parseJMembers f r).map (fun (xs, r') => ((String.mk k, v) :: xs, r'))
            | '\x7d' :: r => some ([(String.mk k, v)], r)
            | _ => none
        | _ => none
    | _ => none

end

/-- Model of Python's `json.loads`: `some` the parsed value on valid JSON,
`none` where `json.loads` raises (invalid syntax, trailing garbage). -/
def jsonParse (s : String) : Option PyVal :=
  match parseJValue (s.length + 1) s.data with
  | some (v, rest) => if skipWs rest = [] then some v else none
  | none => none

/-! ### Python primitive conversions used by the coercion code -/

/-- Python `str.lower()` (character-wise; the strings involved are ASCII). -/
def pyLower (s : String) : String :=
  String.mk (s.data.map Char.toLower)

def pyWs (c : Char) : Bool :=
  c = ' ' || c = '\t' || c = '\n' || c = '\r' || c = '\x0b' || c = '\x0c'

/-- Python `str.strip()`: drop leading and trailing whitespace. -/
def pyStrip (s : String) : String :=
  String.mk (((s.data.dropWhile pyWs).reverse.dropWhile pyWs).reverse)

/-- Python `str()` on the values above.  `str(list)`/`str(dict)` renderings
are abbreviated (no code path below inspects their exact text: the only
consumer lowercases them and compares against short truthy tokens). -/
def pyStr : PyVal → String
  | .pynone => "None"
  | .pystr s => s
  | .pyint n => toString n
  | .pyfloat q => toString q
  | .pybool true => "True"
  | .pybool false => "False"
  | .pylist _ => "[...]"
  | .pydict _ => "\x7b...\x7d"

def parseIntChars : List Char → Option Int
  | [] => none
  | '-' :: ds => if ds ≠ [] && ds.all Char.isDigit then some (-(digitsToNat ds : Int)) else none
  | '+' :: ds => if ds ≠ [] && ds.all Char.isDigit then some (digitsToNat ds : Int) else none
  | ds => if ds.all Char.isDigit then some (digitsToNat ds : Int) else none

/-- Python `int(s)` for a string argument: optional sign and decimal digits,
surrounding whitespace tolerated; anything else raises (`none`). -/
def parseIntStr (s : String) : Option Int :=
  let t := pyStrip s
  if t = "" then none else parseIntChars t.data

/-- Python `float(s)` for a string argument, modelled on rationals: optional
sign, digits with an optional fractional part (exponent and inf/nan forms are
not modelled; no theorem depends on them). -/
def parseFloatStr (s : String) : Option Rat :=
  let t := pyStrip s
  let core : List Char → Option Rat := fun cs =>
    match cs with
    | [] => none
    | _ =>
      let (intDs, rest) := takeDigits cs
      match rest with
      | [] => if intDs = [] then none else some ((digitsToNat intDs : Int) : Rat)
      | '.' :: rest2 =>
        let (fracDs, rest3) := takeDigits rest2
        if rest3 = [] && (intDs ≠ [] || fracDs ≠ []) then
          some (((digitsToNat intDs * 10 ^ fracDs.length + digitsToNat fracDs : Nat) : Rat) /
            (10 : Rat) ^ fracDs.length)
        else none
      | _ => none
  match t.data with
  | '-' :: cs => (core cs).map Neg.neg
  | '+' :: cs => core cs
  | cs => core cs

/-- Rational truncation toward zero, as Python `int(float)`. -/
def ratTrunc (q : Rat) : Int :=
  q.num.tdiv (q.den : Int)

/-- Python `int(value)`: succeeds on ints, bools, floats and integer-shaped
strings; raises (`none`) on `None`, lists, dicts and non-numeric strings. -/
def pyIntOf : PyVal → Option Int
  | .pyint n => some n
  | .pybool b => some (if b then 1 else 0)
  | .pyfloat q => some (ratTrunc q)
  | .pystr s => parseIntStr s
  | _ => none

/-- Python `float(value)`: succeeds on ints, bools, floats and numeric
strings; raises (`none`) otherwise. -/
def pyFloatOf : PyVal → Option Rat
  | .pyint n => some (n : Rat)
  | .pybool b => some (if b then 1 else 0)
  | .pyfloat q => some q
  | .pystr s => parseFloatStr s
  | _ => none

/-! ### `_normalize_value_for_type` (src/streamlit_app.py lines 194-210) -/

/-- The body of `_normalize_value_for_type` without its outer
`try/except`: `Except.error` marks exactly the places where the Python body
raises (`int()`/`float()` on unconvertible input).  The `json` branch has its
own inner `try/except` and is total: `dict`/`list` pass through, strings are
parsed with fallback to the raw string, and any other argument makes
`json.loads` raise, which the inner `except` turns back into the argument. -/
def normalizeCore (value : PyVal) (mtype : String) : Except Unit PyVal :=
  if mtype = "integer" || mtype = "number" || mtype = "float" || mtype = "decimal" then
    if mtype = "integer" then
      match pyIntOf value with
      | some n => .ok (.pyint n)
      | none => .error ()
    else
      match pyFloatOf value with
      | some q => .ok (.pyfloat q)
      | none => .error ()
  else if mtype = "boolean" then
    .ok (.pybool (pyLower (pyStr value) ∈ ["true", "1", "yes", "y", "t"]))
  else if mtype = "json" then
    .ok (match value with
      | .pylist xs => .pylist xs
      | .pydict xs => .pydict xs
      | .pystr s => (jsonParse s).getD (.pystr s)
      | v => v)
  else
    .ok (match value with
      | .pynone => .pystr ""
      | v => .pystr (pyStr v))

/-- `_normalize_value_for_type`: the body wrapped in the outer
`try/except Exception: return value`. -/
def normalize_value_for_type (value : PyVal) (mtype : String) : PyVal :=
  match normalizeCore value mtype with
  | .ok r => r
  | .error _ => value

/-! ### `convert_value_for_type` (src/update_app.py lines 84-93)

Unlike `_normalize_value_for_type`, this function has no `try/except` at
all: `int()`, `float()` and `json.loads()` failures propagate to the caller.
`Except.error` marks exactly those raising paths. -/

def convert_value_for_type (value : PyVal) (mtype : String) : Except Unit PyVal :=
  if mtype = "integer" then
    match pyIntOf value with
    | some n => .ok (.pyint n)
    | none => .error ()
  else if mtype = "float" then
    match pyFloatOf value with
    | some q => .ok (.pyfloat q)
    | none => .error ()
  else if mtype = "boolean" then
    .ok (.pybool (pyLower (pyStr value) ∈ ["true", "1", "yes"]))
  else if mtype = "json" then
    match value with
    | .pystr s =>
      match jsonParse s with
      | some j => .ok j
      | none => .error ()
    | v => .ok v
  else
    .ok (.pystr (pyStr value))

/-! ### Data model: metafields, owners, remote state -/

/-- A metafield as the copy code sees it.  Python's `getattr(mf, "namespace",
None)` / missing attributes are modelled by the empty string (the code only
ever tests them for falsiness).  `namespace` is a Lean keyword, hence `ns`. -/
structure Metafield where
  ns : String
  key : String
  type : String
  value : PyVal

/-- Owner of a write, as carried in the REST payloads (`owner_resource` +
`owner_id`). -/
inductive OwnerRef : Type where
  | product (id : Nat)
  | variant (id : Nat)
deriving DecidableEq

/-- A write issued against the remote client: `createOp` is a POST of a new
metafield, `updateOp` a PUT/save of an existing one.  Each carries the
(namespace, key) slot the loop addressed and the field state transmitted. -/
inductive WriteOp : Type where
  | createOp (owner : OwnerRef) (q : String × String) (mf : Metafield)
  | updateOp (owner : OwnerRef) (q : String × String) (mf : Metafield)

def WriteOp.isCreate : WriteOp → Bool
  | .createOp _ _ _ => true
  | .updateOp _ _ _ => false

def WriteOp.isUpdate : WriteOp → Bool
  | .createOp _ _ _ => false
  | .updateOp _ _ _ => true

def WriteOp.pair : WriteOp → String × String
  | .createOp _ q _ => q
  | .updateOp _ q _ => q

/-- Remote metafield state of one owner, viewed as the partial map that
`_product_metafield_map` builds; the remote invariant that
(owner, namespace, key) is unique justifies the map view. -/
def PairMap : Type := String × String → Option Metafield

def insertPair (m : PairMap) (q : String × String) (mf : Metafield) : PairMap :=
  fun q' => if q' = q then some mf else m q'

/-- `_product_metafield_map` (src/streamlit_app.py lines 184-192): build
`(namespace, key) ↦ metafield` from a fetched listing, skipping entries with
falsy namespace or key; a later duplicate overwrites an earlier one. -/
def product_metafield_map (mfs : List Metafield) : PairMap :=
  mfs.foldl (fun m mf => if mf.ns ≠ "" ∧ mf.key ≠ "" then insertPair m (mf.ns, mf.key) mf else m)
    (fun _ => none)

/-- `get_sync_keys` (src/streamlit_app.py lines 212-223) applied to an
owner's fetched metafield listing: find the first `sync/sync_fields` field,
JSON-decode its value, and return the list of keys; any failure yields `[]`.
Only string elements can ever compare equal to a key, so non-string elements
of the decoded array are dropped. -/
def get_sync_keys (mfs : List Metafield) : List String :=
  match mfs.find? (fun m => m.ns == "sync" && m.key == "sync_fields") with
  | some m =>
    match m.value with
    | .pystr s =>
      match jsonParse s with
      | some (.pylist xs) => xs.filterMap (fun x => match x with | .pystr k => some k | _ => none)
      | _ => []
    | _ => []
  | none => []

/-! ### `copy_product_metafields` (src/streamlit_app.py lines 257-329)

The pass state mirrors the local variables of the function.  `rm` is
`receiver_map`: the dictionary of the receiver's metafields built before the
loop.  Python updates mutate the objects held by that dictionary (so later
reads through it see them), while creates are never added to it; `recv` is
the actual remote state, which both creates and updates reach.  Writes always
succeed in the model, so `ok` is always true and `errors` stays 0. -/

/-- Log lines that matter to the claims: the `[DRY RUN] action ns.key` line. -/
inductive LogMsg : Type where
  | dryRunLog (owner : OwnerRef) (action : String) (ns key : String)

def LogMsg.action : LogMsg → String
  | .dryRunLog _ a _ _ => a

structure PassState where
  total : Nat
  copied : Nat
  skipped_exists : Nat
  skipped_ns : Nat
  skipped_key : Nat
  skipped_unsynced : Nat
  errors : Nat
  rm : PairMap
  recv : PairMap
  writes : List WriteOp
  logs : List LogMsg

/-- The namespace-filter normalization both copy functions perform up
front: `set(namespace_filter) if namespace_filter else None` — a falsy
(absent or empty) argument disables the filter. -/
def nsFilterNorm (namespace_filter : Option (List String)) : Option (List String) :=
  match namespace_filter with
  | some l => if l.isEmpty then none else some l
  | none => none

/-- `set(get_sync_keys(donor)) if only_synced else None`, from the donor
owner's metafield listing. -/
def syncedOf (only_synced : Bool) (donor_metafields : List Metafield) : Option (List String) :=
  if only_synced then some (get_sync_keys donor_metafields) else none

/-- `if ns_filter and ns not in ns_filter`: skip when a non-empty namespace
allow-list is supplied and the namespace is not in it. -/
def nsSkip (ns_filter : Option (List String)) (ns : String) : Bool :=
  match ns_filter with
  | none => false
  | some l => !l.isEmpty && !l.contains ns

/-- `if synced_keyset is not None and key not in synced_keyset`. -/
def syncSkip (synced_keyset : Option (List String)) (key : String) : Bool :=
  match synced_keyset with
  | none => false
  | some l => !l.contains key

/-- `if keys_to_copy is not None and key not in set(keys_to_copy)`. -/
def keySkip (keys_to_copy : Option (List String)) (key : String) : Bool :=
  match keys_to_copy with
  | none => false
  | some l => !l.contains key

/-- One iteration of the `for dm in donor_metafields` loop of
`copy_product_metafields`, in source order: blank namespace/key are skipped
silently; then the namespace filter, the only-synced filter and the key
filter each count into their own skip counter; then `total` is incremented,
the overwrite gate consults `receiver_map`, the value is coerced, and the
field is either logged (dry run) or written (update in place through the
map's object, or create of a fresh metafield). -/
def copyStepP (ns_filter keys_to_copy synced_keyset : Option (List String))
    (overwrite dry_run : Bool) (receiver_id : Nat)
    (st : PassState) (dm : Metafield) : PassState :=
  if dm.ns = "" ∨ dm.key = "" then st
  else if nsSkip ns_filter dm.ns then { st with skipped_ns := st.skipped_ns + 1 }
  else if syncSkip synced_keyset dm.key then { st with skipped_unsynced := st.skipped_unsynced + 1 }
  else if keySkip keys_to_copy dm.key then { st with skipped_key := st.skipped_key + 1 }
  else
    let st1 := { st with total := st.total + 1 }
    let receiver_existing := st1.rm (dm.ns, dm.key)
    if receiver_existing.isSome ∧ overwrite = false then
      { st1 with skipped_exists := st1.skipped_exists + 1 }
    else
      let mtype := if dm.type = "" then "string" else dm.type
      let value := normalize_value_for_type dm.value mtype
      if dry_run then
        let action := if receiver_existing.isSome then "UPDATE" else "CREATE"
        { st1 with copied := st1.copied + 1,
                   logs := st1.logs ++ [.dryRunLog (.product receiver_id) action dm.ns dm.key] }
      else
        match receiver_existing with
        | some rex =>
          let newType := if rex.type = "" ∨ rex.type = "string" then mtype else rex.type
          let rex' : Metafield := { rex with value := value, type := newType }
          { st1 with copied := st1.copied + 1,
                     rm := insertPair st1.rm (dm.ns, dm.key) rex',
                     recv := insertPair st1.recv (dm.ns, dm.key) rex',
                     writes := st1.writes ++ [.updateOp (.product receiver_id) (dm.ns, dm.key) rex'] }
        | none =>
          let mf : Metafield := ⟨dm.ns, dm.key, mtype, value⟩
          { st1 with copied := st1.copied + 1,
                     recv := insertPair st1.recv (dm.ns, dm.key) mf,
                     writes := st1.writes ++ [.createOp (.product receiver_id) (dm.ns, dm.key) mf] }

/-- `copy_product_metafields`: normalize the namespace filter (a falsy —
`None` or empty — argument disables it), build the synced key set from the
donor's own metafields when `only_synced`, take the receiver's metafield map
(state of the receiver before the pass), and fold the per-field step over the
donor's metafields. -/
def copy_product_metafields (donor_metafields : List Metafield) (receiver_map : PairMap)
    (receiver_id : Nat) (keys_to_copy namespace_filter : Option (List String))
    (overwrite only_synced dry_run : Bool) : PassState :=
  let ns_filter := nsFilterNorm namespace_filter
  let synced_keyset := syncedOf only_synced donor_metafields
  List.foldl (copyStepP ns_filter keys_to_copy synced_keyset overwrite dry_run receiver_id)
    { total := 0, copied := 0, skipped_exists := 0, skipped_ns := 0, skipped_key := 0,
      skipped_unsynced := 0, errors := 0, rm := receiver_map, recv := receiver_map,
      writes := [], logs := [] }
    donor_metafields

/-! ### Products, variants and variant matching (src/streamlit_app.py lines 331-355) -/

/-- A variant, with the attributes the matching and copy code reads.
Attributes that can be `None` in Python are `Option`s; `metafields` stands
for what `find_variant_metafields_all(variant.id)` returns for it before any
pass runs. -/
structure Variant where
  id : Nat
  title : Option String
  sku : Option String
  barcode : Option String
  option1 : Option String
  option2 : Option String
  option3 : Option String
  position : Option Int
  metafields : List Metafield

/-- A product, with the attributes the matching and copy code reads. -/
structure Product where
  id : Nat
  title : String
  handle : String
  status : String
  variants : List Variant

/-- A variant match key is a stripped string, or an int for the `position`
strategy. -/
inductive MatchKey : Type where
  | s (v : String)
  | i (v : Int)
deriving DecidableEq

def variantAttr (v : Variant) (name : String) : Option String :=
  if name = "sku" then v.sku
  else if name = "title" then v.title
  else if name = "option1" then v.option1
  else if name = "option2" then v.option2
  else if name = "option3" then v.option3
  else none

/-- `_variant_match_key` (lines 331-346).  The Python parameter is named
`by`, a Lean keyword, hence `matchBy`.  For the attribute strategies a `None`
attribute gives no key and anything else is `str(...).strip()`; `position` is
`int(... or 0)`; any other strategy falls back to SKU, where a falsy SKU
(`None` or `""`) gives no key. -/
def variant_match_key (v : Variant) (matchBy : String) : Option MatchKey :=
  let b := pyLower matchBy
  if b = "sku" ∨ b = "title" ∨ b = "option1" ∨ b = "option2" ∨ b = "option3" then
    match variantAttr v b with
    | none => none
    | some s => some (.s (pyStrip s))
  else if b = "position" then some (.i (v.position.getD 0))
  else
    match v.sku with
    | some s => if s ≠ "" then some (.s (pyStrip s)) else none
    | none => none

def VariantMap : Type := MatchKey → Option Variant

/-- `_variant_map_by` (lines 348-355): build `match_key ↦ variant` over the
product's variants, skipping missing and empty-string keys; a later variant
with the same key overwrites an earlier one. -/
def variant_map_by (p : Product) (matchBy : String) : VariantMap :=
  p.variants.foldl
    (fun m v =>
      match variant_match_key v matchBy with
      | some k => if k ≠ MatchKey.s "" then (fun q => if q = k then some v else m q) else m
      | none => m)
    (fun _ => none)

/-! ### `copy_variant_metafields` (src/streamlit_app.py lines 357-450)

The inner per-field loop is the same shape as the product pass but without a
per-field `total` counter (the source's `total_mf` is declared and never
incremented); writes carry the receiver variant as owner. -/

structure VFieldState where
  total_copied : Nat
  total_skipped_exists : Nat
  total_skipped_ns : Nat
  total_skipped_key : Nat
  total_skipped_unsynced : Nat
  total_errors : Nat
  rm : PairMap
  recv : PairMap
  writes : List WriteOp
  logs : List LogMsg

/-- One iteration of the `for dm in donor_mfs` loop of
`copy_variant_metafields` (lines 394-439), for the receiver variant
`rvar_id`. -/
def copyStepV (ns_filter keys_to_copy synced_keyset : Option (List String))
    (overwrite dry_run : Bool) (rvar_id : Nat)
    (st : VFieldState) (dm : Metafield) : VFieldState :=
  if dm.ns = "" ∨ dm.key = "" then st
  else if nsSkip ns_filter dm.ns then { st with total_skipped_ns := st.total_skipped_ns + 1 }
  else if syncSkip synced_keyset dm.key then
    { st with total_skipped_unsynced := st.total_skipped_unsynced + 1 }
  else if keySkip keys_to_copy dm.key then { st with total_skipped_key := st.total_skipped_key + 1 }
  else
    let receiver_existing := st.rm (dm.ns, dm.key)
    if receiver_existing.isSome ∧ overwrite = false then
      { st with total_skipped_exists := st.total_skipped_exists + 1 }
    else
      let mtype := if dm.type = "" then "string" else dm.type
      let value := normalize_value_for_type dm.value mtype
      if dry_run then
        let action := if receiver_existing.isSome then "UPDATE" else "CREATE"
        { st with total_copied := st.total_copied + 1,
                  logs := st.logs ++ [.dryRunLog (.variant rvar_id) action dm.ns dm.key] }
      else
        match receiver_existing with
        | some rex =>
          let newType := if rex.type = "" ∨ rex.type = "string" then mtype else rex.type
          let rex' : Metafield := { rex with value := value, type := newType }
          { st with total_copied := st.total_copied + 1,
                    rm := insertPair st.rm (dm.ns, dm.key) rex',
                    recv := insertPair st.recv (dm.ns, dm.key) rex',
                    writes := st.writes ++ [.updateOp (.variant rvar_id) (dm.ns, dm.key) rex'] }
        | none =>
          let mf : Metafield := ⟨dm.ns, dm.key, mtype, value⟩
          { st with total_copied := st.total_copied + 1,
                    recv := insertPair st.recv (dm.ns, dm.key) mf,
                    writes := st.writes ++ [.createOp (.variant rvar_id) (dm.ns, dm.key) mf] }

/-- The inner field loop of `copy_variant_metafields` for one matched
donor/receiver variant pair: the receiver variant's metafield map is built
from its current remote listing (`recv_map`), the synced key set comes from
the donor variant's own metafields, and the donor variant's fields are
processed in order. -/
def copy_variant_fields_pair (ns_filter keys_to_copy : Option (List String))
    (overwrite only_synced dry_run : Bool)
    (dvar_metafields : List Metafield) (rvar_id : Nat) (recv_map : PairMap) : VFieldState :=
  let synced_keyset := syncedOf only_synced dvar_metafields
  List.foldl (copyStepV ns_filter keys_to_copy synced_keyset overwrite dry_run rvar_id)
    { total_copied := 0, total_skipped_exists := 0, total_skipped_ns := 0, total_skipped_key := 0,
      total_skipped_unsynced := 0, total_errors := 0, rm := recv_map, recv := recv_map,
      writes := [], logs := [] }
    dvar_metafields

/-- Aggregate state of `copy_variant_metafields`.  `vrecv` is the remote
variant-metafield state, by receiver variant id: the source refetches
`find_variant_metafields_all(rvar.id)` for each matched pair, so writes of an
earlier pair targeting the same receiver variant are visible to a later
one. -/
structure VPassState where
  total_pairs : Nat
  total_copied : Nat
  total_skipped_exists : Nat
  total_skipped_ns : Nat
  total_skipped_key : Nat
  total_skipped_unsynced : Nat
  total_nomatch : Nat
  total_errors : Nat
  vrecv : Nat → PairMap
  writes : List WriteOp
  logs : List LogMsg

/-- `copy_variant_metafields`: build the receiver lookup with
`_variant_map_by`, then for each donor variant either count a no-match (a
missing or unmatched key) or run the inner field loop against the matched
receiver variant and accumulate its counters, writes and logs. -/
def copy_variant_metafields (donor_product receiver_product : Product) (match_by : String)
    (keys_to_copy namespace_filter : Option (List String))
    (overwrite only_synced dry_run : Bool) : VPassState :=
  let ns_filter := nsFilterNorm namespace_filter
  let receiver_lookup := variant_map_by receiver_product match_by
  let vrecv0 : Nat → PairMap := fun id =>
    product_metafield_map
      (((receiver_product.variants.find? (fun v => v.id == id)).map Variant.metafields).getD [])
  List.foldl
    (fun st dvar =>
      let dkey := variant_match_key dvar match_by
      let matched : Option Variant :=
        match dkey with
        | none => none
        | some k => receiver_lookup k
      match matched with
      | none => { st with total_nomatch := st.total_nomatch + 1 }
      | some rvar =>
        let inner := copy_variant_fields_pair ns_filter keys_to_copy overwrite only_synced dry_run
          dvar.metafields rvar.id (st.vrecv rvar.id)
        { st with
          total_pairs := st.total_pairs + 1,
          total_copied := st.total_copied + inner.total_copied,
          total_skipped_exists := st.total_skipped_exists + inner.total_skipped_exists,
          total_skipped_ns := st.total_skipped_ns + inner.total_skipped_ns,
          total_skipped_key := st.total_skipped_key + inner.total_skipped_key,
          total_skipped_unsynced := st.total_skipped_unsynced + inner.total_skipped_unsynced,
          total_errors := st.total_errors + inner.total_errors,
          vrecv := fun id => if id = rvar.id then inner.recv else st.vrecv id,
          writes := st.writes ++ inner.writes,
          logs := st.logs ++ inner.logs })
    { total_pairs := 0, total_copied := 0, total_skipped_exists := 0, total_skipped_ns := 0,
      total_skipped_key := 0, total_skipped_unsynced := 0, total_nomatch := 0, total_errors := 0,
      vrecv := vrecv0, writes := [], logs := [] }
    donor_product.variants

/-! ### Cross-store product matching (src/update_app.py lines 38-73, 96-122) -/

/-- `get_variant_barcode`: the first variant with a truthy barcode yields
that barcode, stripped. -/
def get_variant_barcode (p : Product) : Option String :=
  p.variants.findSome? (fun v =>
    match v.barcode with
    | some b => if b ≠ "" then some (pyStrip b) else none
    | none => none)

/-- Whether a variant's barcode is truthy and strips to `bc`. -/
def variantHasBarcode (bc : String) (v : Variant) : Bool :=
  match v.barcode with
  | some b => b ≠ "" && pyStrip b == bc
  | none => false

/-- `find_product_by_variant_barcode`: scan the paginated product listing in
order and return the first product containing a variant whose stripped
barcode equals the argument (the source then refetches that product by id,
which yields the same product). -/
def find_product_by_variant_barcode : List Product → String → Option Product
  | [], _ => none
  | p :: rest, bc =>
    if p.variants.any (variantHasBarcode bc) then some p
    else find_product_by_variant_barcode rest bc

inductive SyncErr : Type where
  | noBarcode
  | notFoundOrInactive
deriving DecidableEq

/-- The target-product resolution step of `sync_product_fields` (lines
97-121): take the primary product's first variant barcode (missing barcode
aborts), look the target up by variant barcode only, and reject a missing or
non-active target. -/
def sync_target_lookup (primary : Product) (store : List Product) : Except SyncErr Product :=
  match get_variant_barcode primary with
  | none => .error .noBarcode
  | some bc =>
    match find_product_by_variant_barcode store bc with
    | none => .error .notFoundOrInactive
    | some p => if p.status ≠ "active" then .error .notFoundOrInactive else .ok p

/-- Rewrite a product's handle and title (all its barcodes untouched); used
to state that barcode matching never consults handles or titles. -/
def relabelProduct (f g : String → String) (p : Product) : Product :=
  { p with handle := f p.handle, title := g p.title }

/-- The product-level matcher as the specification describes it: ordered
fallback (1) a variant barcode in common, (2) handle equality,
(3) case-insensitive whitespace-trimmed title equality, where the first
strategy yielding exactly one candidate wins.  Stated only to be compared
with the code's matcher. -/
def sharesVariantBarcode (src cand : Product) : Bool :=
  cand.variants.any (fun v =>
    src.variants.any (fun w =>
      match v.barcode, w.barcode with
      | some b, some c => b ≠ "" && c ≠ "" && b == c
      | _, _ => false))

def normTitleKey (s : String) : String := pyLower (pyStrip s)

def spec_product_match (src : Product) (store : List Product) : Option Product :=
  let c1 := store.filter (sharesVariantBarcode src)
  if c1.length = 1 then c1.head?
  else
    let c2 := store.filter (fun p => p.handle == src.handle)
    if c2.length = 1 then c2.head?
    else
      let c3 := store.filter (fun p => normTitleKey p.title == normTitleKey src.title)
      if c3.length = 1 then c3.head? else none

/-! ### The rate-limited REST helpers

`_rest` (src/copy_product_meta_fields.py lines 31-45): a bounded `for`
loop over attempts; 429 and 5xx sleep and retry the same request, anything
else goes through `raise_for_status`; after the loop the last response's
`raise_for_status` runs (with `max_retries = 0` the loop body never runs and
the final `resp` is unbound, a NameError, modelled as `noAttempt`).

`shopify_get` (src/copy_product_meta.py lines 21-30): an unbounded
`while True` loop that sleeps and retries on 429 forever; modelled with
explicit fuel, `none` meaning the loop is still running after that many
iterations. -/

structure HttpResp where
  status : Nat
  retryAfter : Nat

inductive RestError : Type where
  | httpStatus (code : Nat)
  | noAttempt
deriving DecidableEq

/-- `resp.raise_for_status()`: 4xx/5xx raise, everything else returns the
response. -/
def raise_for_status (r : HttpResp) : Except RestError HttpResp :=
  if 400 ≤ r.status then .error (.httpStatus r.status) else .ok r

def retryable (s : Nat) : Bool :=
  s == 429 || (500 ≤ s && s < 600)

/-- The attempt loop of `_rest`: `i` is the index of the next request,
the second argument the remaining attempts; returns the outcome and the
number of requests issued.  The response to request `n` is `resps n` (the
request itself is fixed — method, url, params and body never change across
attempts). -/
def restAux (resps : Nat → HttpResp) : Nat → Nat → Except RestError HttpResp × Nat
  | i, 0 =>
    (match i with
     | 0 => .error .noAttempt
     | j + 1 => raise_for_status (resps j), i)
  | i, r + 1 =>
    let resp := resps i
    if resp.status == 429 then restAux resps (i + 1) r
    else if 500 ≤ resp.status ∧ resp.status < 600 then restAux resps (i + 1) r
    else (raise_for_status resp, i + 1)

/-- `_rest(method, path, ...)` with the given response sequence and
`max_retries`. -/
def _rest (resps : Nat → HttpResp) (max_retries : Nat) : Except RestError HttpResp × Nat :=
  restAux resps 0 max_retries

/-- The `while True` retry loop of `shopify_get`, with fuel: `none` means
the loop has not returned within `fuel` iterations. -/
def shopify_get_fuel (resps : Nat → HttpResp) : Nat → Nat → Option (Except RestError HttpResp)
  | _, 0 => none
  | i, f + 1 =>
    let resp := resps i
    if resp.status == 429 then shopify_get_fuel resps (i + 1) f
    else some (raise_for_status resp)

/-- `shopify_get` never terminates on this response sequence: no amount of
fuel makes the loop return. -/
def shopify_get_diverges (resps : Nat → HttpResp) : Prop :=
  ∀ fuel, shopify_get_fuel resps 0 fuel = none

/-! ### Pagination

`_paginate_get` (src/copy_product_meta_fields.py lines 47-75) follows the
`page_info` cursor from the Link header until there is no next page,
extending an accumulator with each page.  The linked pages of the remote
collection are materialized as a `PageChain` (the chain is finite because the
remote collection is); the Link-header token indirection is absorbed into the
chain structure.

`get_all_products` (src/copy_product_meta.py lines 66-78) is the legacy
fetch-all: its `while True` body ends in `if "link" not in resp: break`
followed by an unconditional `break`, so it returns after the first
iteration whatever the chain holds beyond the first page. -/

inductive PageChain (α : Type) : Type where
  | last (items : List α)
  | more (items : List α) (rest : PageChain α)

/-- The items of the first page. -/
def PageChain.firstItems {α : Type} : PageChain α → List α
  | .last xs => xs
  | .more xs _ => xs

/-- The whole remote collection: every page's items, in page order. -/
def chainJoin {α : Type} : PageChain α → List α
  | .last xs => xs
  | .more xs r => xs ++ chainJoin r

/-- The `while True` loop of `_paginate_get`: `out.extend(page)` then follow
the next-page cursor if present. -/
def paginateLoop {α : Type} (out : List α) : PageChain α → List α
  | .last xs => out ++ xs
  | .more xs r => paginateLoop (out ++ xs) r

def _paginate_get {α : Type} (c : PageChain α) : List α :=
  paginateLoop [] c

/-- `get_all_products` of src/copy_product_meta.py: one loop iteration
(`products.extend(...)` of the first response), then `break` on either
branch. -/
def get_all_products {α : Type} (c : PageChain α) : List α :=
  [] ++ c.firstItems

/-! ### The duplicate-title copy block (src/copy_product_meta_fields.py lines 90-214) -/

/-- One planned action of the per-target copy block: namespace, key,
`"update"`/`"create"` classification, declared type and value. -/
structure MetaAction where
  ns : String
  key : String
  action : String
  typ : String
  val : PyVal

/-- `upsert_metafield` (lines 90-102): PUT to the existing metafield's id if
the (namespace, key) is present in `existing_by_ns_key`, else POST a new
product-owned metafield; returns the status string and the request issued. -/
def upsert_metafield (product_id : Nat) (ns key : String) (value : PyVal) (type_str : String)
    (existing_by_ns_key : PairMap) : String × WriteOp :=
  match existing_by_ns_key (ns, key) with
  | some _ => ("updated", .updateOp (.product product_id) (ns, key) ⟨ns, key, type_str, value⟩)
  | none => ("created", .createOp (.product product_id) (ns, key) ⟨ns, key, type_str, value⟩)

/-- The classification loop (lines 197-203): one action per donor metafield,
`"update"` when the (namespace, key) exists on the target, `"create"`
otherwise. -/
def metaActions (donor_by_ns_key : List Metafield) (tgt_by_ns_key : PairMap) : List MetaAction :=
  donor_by_ns_key.map (fun mf =>
    { ns := mf.ns, key := mf.key,
      action := if (tgt_by_ns_key (mf.ns, mf.key)).isSome then "update" else "create",
      typ := mf.type, val := mf.value })

/-- The execute block (lines 205-214): in dry run, report `"would_" + action`
per action and issue nothing; live, call `upsert_metafield` per action and
collect the issued requests. -/
def metaExecute (DRY_RUN : Bool) (tgt_id : Nat) (actions : List MetaAction)
    (tgt_by_ns_key : PairMap) : List (String × String × String) × List WriteOp :=
  if DRY_RUN then
    (actions.map (fun a => (a.ns, a.key, "would_" ++ a.action)), [])
  else
    actions.foldl
      (fun acc a =>
        let (status, w) := upsert_metafield tgt_id a.ns a.key a.val a.typ tgt_by_ns_key
        (acc.1 ++ [(a.ns, a.key, status)], acc.2 ++ [w]))
      ([], [])

/-! ### Concrete fixtures used by witnesses and counterexamples -/

def dupVarA : Variant := ⟨101, none, some "SKU-1", none, none, none, none, some 1, []⟩

def dupVarB : Variant := ⟨102, none, some "SKU-1", none, none, none, none, some 2, []⟩

def dupProduct : Product := ⟨9, "P", "p", "active", [dupVarA, dupVarB]⟩

def c8Primary : Product :=
  ⟨1, "Widget", "widget-handle", "active",
    [⟨11, none, none, some "111", none, none, none, some 1, []⟩]⟩

def c8Receiver : Product :=
  ⟨2, "Widget", "widget-handle", "active",
    [⟨21, none, none, some "222", none, none, none, some 1, []⟩]⟩

/-! ## Derived predicates and counting helpers used by the theorems -/

/-- The field fails the namespace allow-list (the first filter of the copy
loops). -/
def failsNsFilter (nf : Option (List String)) (dm : Metafield) : Bool :=
  dm.ns ≠ "" && dm.key ≠ "" && nsSkip nf dm.ns

/-- The field passes the namespace filter but fails the only-synced filter. -/
def failsSyncFilter (nf sk : Option (List String)) (dm : Metafield) : Bool :=
  dm.ns ≠ "" && dm.key ≠ "" && !nsSkip nf dm.ns && syncSkip sk dm.key

/-- The field passes the first two filters but fails the key filter. -/
def failsKeyFilter (nf sk kc : Option (List String)) (dm : Metafield) : Bool :=
  dm.ns ≠ "" && dm.key ≠ "" && !nsSkip nf dm.ns && !syncSkip sk dm.key && keySkip kc dm.key

/-- The field has non-blank namespace and key and passes all three filters. -/
def passesFilters (nf sk kc : Option (List String)) (dm : Metafield) : Bool :=
  dm.ns ≠ "" && dm.key ≠ "" && !nsSkip nf dm.ns && !syncSkip sk dm.key && !keySkip kc dm.key

/-- The field's (namespace, key) pair is present in the given receiver
state. -/
def isExisting (m : PairMap) (dm : Metafield) : Bool :=
  (m (dm.ns, dm.key)).isSome

def countAction (logs : List LogMsg) (a : String) : Nat :=
  logs.countP (fun l => l.action == a)

def countCreates (ws : List WriteOp) : Nat :=
  ws.countP WriteOp.isCreate

def countUpdates (ws : List WriteOp) : Nat :=
  ws.countP WriteOp.isUpdate

def countStatus (rs : List (String × String × String)) (s : String) : Nat :=
  rs.countP (fun r => r.2.2 == s)

/-- The metafield state the copy loops leave at a pair they write: an update
keeps the receiver's object, replacing its value and upgrading a blank or
generic type to the donor's; a create carries the donor's namespace, key,
type and coerced value. -/
def writeResult (old : Option Metafield) (dm : Metafield) : Metafield :=
  let mtype := if dm.type = "" then "string" else dm.type
  let value := normalize_value_for_type dm.value mtype
  match old with
  | some rex =>
    { rex with value := value, type := if rex.type = "" ∨ rex.type = "string" then mtype else rex.type }
  | none => ⟨dm.ns, dm.key, mtype, value⟩

lemma insertPair_lookup_self (m : PairMap) (q : String × String) (mf : Metafield) :
    insertPair m q mf q = some mf := by
  simp [insertPair]

lemma insertPair_lookup_other (m : PairMap) (q q' : String × String) (mf : Metafield)
    (h : q' ≠ q) : insertPair m q mf q' = m q' := by
  simp [insertPair, h]

lemma insertPair_self (m : PairMap) (q : String × String) (mf : Metafield)
    (h : m q = some mf) : insertPair m q mf = m := by
  funext q'
  by_cases hq : q' = q
  · subst hq; simp [insertPair, h]
  · simp [insertPair, hq]

/-! ## C10: totality of `_normalize_value_for_type` -/

/-- C10: `_normalize_value_for_type` is total: for every input value and
type string it returns a value and never propagates an exception; when the
coercion body fails internally, the original value is returned unchanged. -/
theorem normalize_value_for_type_total (v : PyVal) (t : String) :
    normalizeCore v t = Except.ok (normalize_value_for_type v t) ∨
      (normalizeCore v t = Except.error () ∧ normalize_value_for_type v t = v) := by
  cases h : normalizeCore v t with
  | ok r => left; simp [normalize_value_for_type, h]
  | error e => right; cases e; simp [normalize_value_for_type, h]

/-! ## C5: JSON coercion fallback -/

/-- C5 counterexample: the claim says every coercion path used by the
sync/copy engines returns the raw string unchanged, never raising, when the
declared type is JSON and parsing fails; but `convert_value_for_type` of
src/update_app.py raises (`json.loads` has no try/except there) on the
invalid JSON string "not json". -/
theorem convert_value_raises_on_invalid_json :
    jsonParse "not json" = none ∧
      convert_value_for_type (PyVal.pystr "not json") "json" = Except.error () :=
  ⟨rfl, rfl⟩

/-- C5 (amended): for declared type JSON, `_normalize_value_for_type` (the
streamlit copy-engine path) returns the parsed structure on valid JSON and
the raw string unchanged, never raising, on invalid JSON; the
`convert_value_for_type` path of src/update_app.py returns the
parsed structure on valid JSON but raises on invalid JSON. -/
theorem json_coercion_paths (s : String) :
    (jsonParse s = none →
      normalize_value_for_type (.pystr s) "json" = .pystr s ∧
        convert_value_for_type (.pystr s) "json" = Except.error ()) ∧
    (∀ j, jsonParse s = some j →
      normalize_value_for_type (.pystr s) "json" = j ∧
        convert_value_for_type (.pystr s) "json" = Except.ok j) := by
  have hn : normalize_value_for_type (.pystr s) "json" = (jsonParse s).getD (.pystr s) := rfl
  have hc : convert_value_for_type (.pystr s) "json" =
      (match jsonParse s with
       | some j => Except.ok j
       | none => Except.error ()) := rfl
  constructor
  · intro h
    rw [hn, hc, h]
    exact ⟨rfl, rfl⟩
  · intro j h
    rw [hn, hc, h]
    exact ⟨rfl, rfl⟩

theorem json_coercion_paths_witness :
    (normalize_value_for_type (.pystr "not json") "json" = .pystr "not json" ∧
      convert_value_for_type (.pystr "not json") "json" = Except.error ()) ∧
    (normalize_value_for_type (.pystr "[1, 2]") "json" = .pylist [.pyint 1, .pyint 2] ∧
      convert_value_for_type (.pystr "[1, 2]") "json" = Except.ok (.pylist [.pyint 1, .pyint 2])) :=
  ⟨(json_coercion_paths "not json").1 rfl,
    (json_coercion_paths "[1, 2]").2 (.pylist [.pyint 1, .pyint 2]) rfl⟩

/-! ## C7: pagination -/

lemma paginateLoop_eq {α : Type} (c : PageChain α) :
    ∀ out : List α, paginateLoop out c = out ++ chainJoin c := by
  induction c with
  | last xs => intro out; rfl
  | more xs r ih =>
    intro out
    simp [paginateLoop, chainJoin, ih, List.append_assoc]

/-- C7 counterexample: on a two-page collection, the fetch-all operation
`get_all_products` of src/copy_product_meta.py returns only the first page —
its loop body ends in an unconditional `break` — so the result does not
contain every item of the remote collection. -/
theorem get_all_products_truncates :
    get_all_products (PageChain.more [1] (PageChain.last [2])) = [1] ∧
      chainJoin (PageChain.more [1] (PageChain.last [2])) = [1, 2] ∧
      get_all_products (PageChain.more [1] (PageChain.last [2])) ≠
        chainJoin (PageChain.more [1] (PageChain.last [2])) :=
  ⟨rfl, rfl, by decide⟩

/-- C7 (amended): `_paginate_get` of src/copy_product_meta_fields.py follows
the next-page cursor until no further page exists and returns the
concatenation of all pages in original order; the legacy `get_all_products`
of src/copy_product_meta.py instead returns only the first page. -/
theorem paginate_get_collects_all_pages {α : Type} (c : PageChain α) :
    _paginate_get c = chainJoin c ∧ get_all_products c = c.firstItems := by
  refine ⟨?_, rfl⟩
  simpa [_paginate_get] using paginateLoop_eq c []

/-! ## C6: retry policy -/

lemma restAux_succ_retry (resps : Nat → HttpResp) (i r : Nat)
    (h : retryable (resps i).status = true) :
    restAux resps i (r + 1) = restAux resps (i + 1) r := by
  simp only [retryable, Bool.or_eq_true, beq_iff_eq, Bool.and_eq_true, decide_eq_true_eq] at h
  rcases h with h | h
  · simp [restAux, h]
  · cases h429 : ((resps i).status == 429) with
    | true => simp [restAux, h429]
    | false => simp [restAux, h429, h]

lemma restAux_succ_stop (resps : Nat → HttpResp) (i r : Nat)
    (h : retryable (resps i).status = false) :
    restAux resps i (r + 1) = (raise_for_status (resps i), i + 1) := by
  simp only [retryable, Bool.or_eq_false_iff, Bool.and_eq_false_iff, beq_eq_false_iff_ne,
    ne_eq, decide_eq_false_iff_not, not_le, not_lt] at h
  have h429 : ((resps i).status == 429) = false := by
    simp [beq_eq_false_iff_ne, h.1]
  have h5 : ¬(500 ≤ (resps i).status ∧ (resps i).status < 600) := by
    rcases h.2 with h2 | h2
    · intro hc; omega
    · intro hc; omega
  simp [restAux, h429, h5]

lemma restAux_count_le (resps : Nat → HttpResp) :
    ∀ r i, (restAux resps i r).2 ≤ i + r := by
  intro r
  induction r with
  | zero => intro i; simp [restAux]
  | succ r ih =>
    intro i
    cases hret : retryable (resps i).status with
    | true =>
      rw [restAux_succ_retry resps i r hret]
      calc (restAux resps (i + 1) r).2 ≤ i + 1 + r := ih (i + 1)
        _ = i + (r + 1) := by omega
    | false =>
      rw [restAux_succ_stop resps i r hret]
      omega

lemma restAux_exhaust (resps : Nat → HttpResp) :
    ∀ r i, (∀ m, m < r → retryable (resps (i + m)).status = true) →
      (i = 0 ∨ retryable (resps (i - 1)).status = true) →
      ∃ e, (restAux resps i r).1 = Except.error e := by
  intro r
  induction r with
  | zero =>
    intro i _ hprev
    match i, hprev with
    | 0, _ => exact ⟨.noAttempt, rfl⟩
    | j + 1, Or.inr hr =>
      refine ⟨.httpStatus (resps j).status, ?_⟩
      have hge : 400 ≤ (resps j).status := by
        simp only [Nat.add_sub_cancel] at hr
        simp only [retryable, Bool.or_eq_true, beq_iff_eq, Bool.and_eq_true,
          decide_eq_true_eq] at hr
        omega
      simp [restAux, raise_for_status, hge]
  | succ r ih =>
    intro i hall _
    have h0 : retryable (resps i).status = true := by
      have := hall 0 (Nat.succ_pos r)
      simpa using this
    have hnext : ∀ m, m < r → retryable (resps (i + 1 + m)).status = true := by
      intro m hm
      have := hall (m + 1) (by omega)
      simpa [Nat.add_assoc, Nat.add_comm 1 m] using this
    have hprev' : i + 1 = 0 ∨ retryable (resps (i + 1 - 1)).status = true := by
      right; simpa using h0
    rw [restAux_succ_retry resps i r h0]
    exact ih (i + 1) hnext hprev'

lemma restAux_first_success (resps : Nat → HttpResp) :
    ∀ r i k, k < r → retryable (resps (i + k)).status = false →
      (∀ j, j < k → retryable (resps (i + j)).status = true) →
      restAux resps i r = (raise_for_status (resps (i + k)), i + k + 1) := by
  intro r
  induction r with
  | zero => intro i k hk; omega
  | succ r ih =>
    intro i k hk hnr hall
    cases k with
    | zero =>
      simp only [Nat.add_zero] at hnr ⊢
      exact restAux_succ_stop resps i r hnr
    | succ k' =>
      have h0 : retryable (resps i).status = true := by
        have := hall 0 (Nat.succ_pos k')
        simpa using this
      have hnr' : retryable (resps (i + 1 + k')).status = false := by
        have heq : i + 1 + k' = i + (k' + 1) := by omega
        rw [heq]; exact hnr
      have hall' : ∀ j, j < k' → retryable (resps (i + 1 + j)).status = true := by
        intro j hj
        have heq : i + 1 + j = i + (j + 1) := by omega
        rw [heq]; exact hall (j + 1) (by omega)
      rw [restAux_succ_retry resps i r h0, ih (i + 1) k' (by omega) hnr' hall']
      have heq : i + 1 + k' = i + (k' + 1) := by omega
      rw [heq]

lemma shopify_get_fuel_429 (resps : Nat → HttpResp) (hall : ∀ i, (resps i).status = 429) :
    ∀ fuel i, shopify_get_fuel resps i fuel = none := by
  intro fuel
  induction fuel with
  | zero => intro i; rfl
  | succ f ih =>
    intro i
    simp [shopify_get_fuel, hall i, ih]

/-- C6 counterexample: the claim says every retry loop of the remote client
helpers terminates for every sequence of server responses, but the
`while True` loop of `shopify_get` (src/copy_product_meta.py) never returns
when the server answers 429 forever. -/
theorem shopify_get_loops_forever_on_429 :
    shopify_get_diverges (fun _ => ⟨429, 2⟩) :=
  fun fuel => shopify_get_fuel_429 _ (fun _ => rfl) fuel 0

/-- C6 (amended): `_rest` of src/copy_product_meta_fields.py retries the
same request on 429/5xx up to `max_retries` attempts and surfaces an error
(rather than crashing or looping) when they are exhausted, returning the
first non-retryable response's outcome otherwise; the `shopify_get` helper
of src/copy_product_meta.py instead retries 429 without bound and never
terminates under persistent 429. -/
theorem rest_bounded_retry (resps : Nat → HttpResp) (n : Nat) :
    ((_rest resps n).2 ≤ n ∧
      ((∀ i, i < n → retryable (resps i).status = true) →
        ∃ e, (_rest resps n).1 = Except.error e) ∧
      (∀ k, k < n → retryable (resps k).status = false →
        (∀ j, j < k → retryable (resps j).status = true) →
        _rest resps n = (raise_for_status (resps k), k + 1))) ∧
    (∀ rs : Nat → HttpResp, (∀ i, (rs i).status = 429) → shopify_get_diverges rs) := by
  refine ⟨⟨?_, ?_, ?_⟩, ?_⟩
  · simpa using restAux_count_le resps n 0
  · intro hall
    exact restAux_exhaust resps n 0 (fun m hm => by simpa using hall m hm) (Or.inl rfl)
  · intro k hk hnr hall
    simpa using restAux_first_success resps n 0 k hk (by simpa using hnr)
      (fun j hj => by simpa using hall j hj)
  · intro rs hall fuel
    exact shopify_get_fuel_429 rs hall fuel 0

theorem rest_bounded_retry_witness :
    (∃ e, (_rest (fun _ => ⟨429, 2⟩) 5).1 = Except.error e) ∧
      _rest (fun i => if i < 2 then ⟨429, 2⟩ else ⟨200, 0⟩) 5 =
        (Except.ok ⟨200, 0⟩, 3) ∧
      shopify_get_fuel (fun _ => ⟨429, 2⟩) 0 7 = none := by
  refine ⟨?_, ?_, ?_⟩
  · exact (rest_bounded_retry (fun _ => ⟨429, 2⟩) 5).1.2.1
      (fun i _ => rfl)
  · have h := (rest_bounded_retry (fun i => if i < 2 then ⟨429, 2⟩ else ⟨200, 0⟩) 5).1.2.2
      2 (by omega) (by decide) (by decide)
    simpa using h
  · exact (rest_bounded_retry (fun _ => ⟨429, 2⟩) 0).2 (fun _ => ⟨429, 2⟩) (fun _ => rfl) 7

/-! ## C9: duplicate variant match keys resolve to the last enumerated variant -/

lemma variant_map_foldl (matchBy : String) (k : MatchKey) (hk : k ≠ MatchKey.s "") :
    ∀ (l : List Variant) (m : MatchKey → Option Variant),
      (l.foldl
        (fun m v =>
          match variant_match_key v matchBy with
          | some k' => if k' ≠ MatchKey.s "" then (fun q => if q = k' then some v else m q) else m
          | none => m) m) k =
      (l.reverse.find? (fun v => variant_match_key v matchBy == some k)).or (m k) := by
  intro l
  induction l with
  | nil => intro m; simp
  | cons v t ih =>
    intro m
    have hstep :
        (match variant_match_key v matchBy with
          | some k' => if k' ≠ MatchKey.s "" then
              (fun q => if q = k' then some v else m q) else m
          | none => m) k =
        (([v].find? (fun v => variant_match_key v matchBy == some k)).or (m k)) := by
      cases hkv : variant_match_key v matchBy with
      | none => simp [List.find?, hkv]
      | some k' =>
        by_cases hblank : k' = MatchKey.s ""
        · subst hblank
          have : (some (MatchKey.s "") == some k) = false := by
            simp [beq_eq_false_iff_ne]
            exact fun h => hk h.symm
          simp [List.find?, hkv, this]
        · by_cases hkk : k' = k
          · subst hkk
            simp [List.find?, hkv, hblank]
          · have : (some k' == some k) = false := by
              simp [beq_eq_false_iff_ne, hkk]
            have hne : ¬(k = k') := fun h => hkk h.symm
            simp [List.find?, hkv, hblank, this, hne]
    rw [List.foldl_cons, ih, List.reverse_cons, List.find?_append, Option.or_assoc, hstep]

/-- C9: for every product and match strategy, when several receiver variants
share the same non-blank match key, `_variant_map_by` resolves that key to
the last variant in enumeration order (the first match of the reversed
variant list). -/
theorem variant_match_last_wins (p : Product) (matchBy : String) (k : MatchKey)
    (hk : k ≠ MatchKey.s "") :
    variant_map_by p matchBy k =
      p.variants.reverse.find? (fun v => variant_match_key v matchBy == some k) := by
  have h := variant_map_foldl matchBy k hk p.variants (fun _ => none)
  simpa [variant_map_by] using h

theorem variant_match_last_wins_witness :
    variant_map_by dupProduct "sku" (MatchKey.s "SKU-1") =
      dupProduct.variants.reverse.find?
        (fun v => variant_match_key v "sku" == some (MatchKey.s "SKU-1")) ∧
    variant_map_by dupProduct "sku" (MatchKey.s "SKU-1") = some dupVarB :=
  ⟨variant_match_last_wins dupProduct "sku" (MatchKey.s "SKU-1") (by decide), rfl⟩

/-! ## C8: cross-store product matching -/

lemma find_pbvb_eq_find? (bc : String) :
    ∀ store : List Product,
      find_product_by_variant_barcode store bc =
        store.find? (fun p => p.variants.any (variantHasBarcode bc)) := by
  intro store
  induction store with
  | nil => rfl
  | cons p rest ih =>
    cases h : p.variants.any (variantHasBarcode bc) with
    | true => simp [find_product_by_variant_barcode, List.find?_cons, h]
    | false => simp [find_product_by_variant_barcode, List.find?_cons, h, ih]

lemma find_pbvb_relabel (f g : String → String) (bc : String) :
    ∀ store : List Product,
      find_product_by_variant_barcode (store.map (relabelProduct f g)) bc =
        (find_product_by_variant_barcode store bc).map (relabelProduct f g) := by
  intro store
  induction store with
  | nil => rfl
  | cons p rest ih =>
    have hv : (relabelProduct f g p).variants = p.variants := rfl
    cases h : p.variants.any (variantHasBarcode bc) with
    | true => simp [find_product_by_variant_barcode, hv, h]
    | false => simp [find_product_by_variant_barcode, hv, h, ih]

/-- C8 (amended): the cross-store product-level match of
`sync_product_fields` consults only the variant-barcode strategy: it returns
the first product of the receiver store's listing containing a variant whose
stripped barcode equals the primary's first variant barcode, and its outcome
is invariant under arbitrary rewrites of the receiver products' handles and
titles — handle equality and title equality are never consulted, not even
when barcode matching fails. -/
theorem barcode_only_matching (store : List Product) (bc : String) (primary : Product)
    (f g : String → String) :
    find_product_by_variant_barcode store bc =
      store.find? (fun p => p.variants.any (variantHasBarcode bc)) ∧
    find_product_by_variant_barcode (store.map (relabelProduct f g)) bc =
      (find_product_by_variant_barcode store bc).map (relabelProduct f g) ∧
    sync_target_lookup primary (store.map (relabelProduct f g)) =
      (sync_target_lookup primary store).map (relabelProduct f g) := by
  refine ⟨find_pbvb_eq_find? bc store, find_pbvb_relabel f g bc store, ?_⟩
  cases hb : get_variant_barcode primary with
  | none => simp [sync_target_lookup, hb, Except.map]
  | some bc' =>
    simp only [sync_target_lookup, hb]
    rw [find_pbvb_relabel f g bc' store]
    cases find_product_by_variant_barcode store bc' with
    | none => simp [Except.map]
    | some p =>
      have hst : (relabelProduct f g p).status = p.status := rfl
      by_cases h : p.status ≠ "active"
      · simp [hst, h, Except.map]
      · simp [hst, h, Except.map]

/-- C8 counterexample: the claim's ordered-fallback matcher resolves this
receiver uniquely by handle equality (strategy 2) after barcode matching
fails, but the code's target lookup reports "not found" — the later
strategies are never consulted, so the claimed fallback order does not
exist in the code. -/
theorem sync_match_has_no_handle_fallback :
    spec_product_match c8Primary [c8Receiver] = some c8Receiver ∧
      sync_target_lookup c8Primary [c8Receiver] = Except.error SyncErr.notFoundOrInactive :=
  ⟨rfl, rfl⟩

/-! ## The copy-pass step: exhaustive case analysis

`copyStepP_cases` describes one iteration of the product-pass field loop as
five mutually exclusive outcomes: filtered out (blank or one of the three
filters), blocked by the overwrite gate, dry-run logged, live update, live
create — with the exact effect on every component of the state. -/

lemma fails_of_passes (nf sk kc : Option (List String)) (dm : Metafield)
    (h : passesFilters nf sk kc dm = true) :
    failsNsFilter nf dm = false ∧ failsSyncFilter nf sk dm = false ∧
      failsKeyFilter nf sk kc dm = false := by
  simp only [passesFilters, Bool.and_eq_true, Bool.not_eq_true'] at h
  obtain ⟨⟨⟨⟨h1, h2⟩, h3⟩, h4⟩, h5⟩ := h
  simp [failsNsFilter, failsSyncFilter, failsKeyFilter, h1, h2, h3, h4, h5]

lemma copyStepP_cases (nf kc sk : Option (List String)) (ow dr : Bool) (rid : Nat)
    (st : PassState) (dm : Metafield) (st' : PassState)
    (hst : st' = copyStepP nf kc sk ow dr rid st dm) :
    (passesFilters nf sk kc dm = false ∧
      st'.rm = st.rm ∧ st'.recv = st.recv ∧ st'.writes = st.writes ∧ st'.logs = st.logs ∧
      st'.total = st.total ∧ st'.copied = st.copied ∧
      st'.skipped_exists = st.skipped_exists ∧ st'.errors = st.errors ∧
      st'.skipped_ns = st.skipped_ns + (if failsNsFilter nf dm then 1 else 0) ∧
      st'.skipped_unsynced = st.skipped_unsynced + (if failsSyncFilter nf sk dm then 1 else 0) ∧
      st'.skipped_key = st.skipped_key + (if failsKeyFilter nf sk kc dm then 1 else 0)) ∨
    (passesFilters nf sk kc dm = true ∧ (st.rm (dm.ns, dm.key)).isSome = true ∧ ow = false ∧
      st'.rm = st.rm ∧ st'.recv = st.recv ∧ st'.writes = st.writes ∧ st'.logs = st.logs ∧
      st'.total = st.total + 1 ∧ st'.copied = st.copied ∧
      st'.skipped_exists = st.skipped_exists + 1 ∧ st'.errors = st.errors ∧
      st'.skipped_ns = st.skipped_ns ∧ st'.skipped_unsynced = st.skipped_unsynced ∧
      st'.skipped_key = st.skipped_key) ∨
    (dr = true ∧ passesFilters nf sk kc dm = true ∧
      (ow = true ∨ (st.rm (dm.ns, dm.key)).isSome = false) ∧
      st'.rm = st.rm ∧ st'.recv = st.recv ∧ st'.writes = st.writes ∧
      st'.logs = st.logs ++ [.dryRunLog (.product rid)
        (if (st.rm (dm.ns, dm.key)).isSome then "UPDATE" else "CREATE") dm.ns dm.key] ∧
      st'.total = st.total + 1 ∧ st'.copied = st.copied + 1 ∧
      st'.skipped_exists = st.skipped_exists ∧ st'.errors = st.errors ∧
      st'.skipped_ns = st.skipped_ns ∧ st'.skipped_unsynced = st.skipped_unsynced ∧
      st'.skipped_key = st.skipped_key) ∨
    (dr = false ∧ passesFilters nf sk kc dm = true ∧ ow = true ∧
      (∃ rex, st.rm (dm.ns, dm.key) = some rex ∧
        st'.rm = insertPair st.rm (dm.ns, dm.key) (writeResult (some rex) dm) ∧
        st'.recv = insertPair st.recv (dm.ns, dm.key) (writeResult (some rex) dm) ∧
        st'.writes = st.writes ++
          [.updateOp (.product rid) (dm.ns, dm.key) (writeResult (some rex) dm)]) ∧
      st'.logs = st.logs ∧
      st'.total = st.total + 1 ∧ st'.copied = st.copied + 1 ∧
      st'.skipped_exists = st.skipped_exists ∧ st'.errors = st.errors ∧
      st'.skipped_ns = st.skipped_ns ∧ st'.skipped_unsynced = st.skipped_unsynced ∧
      st'.skipped_key = st.skipped_key) ∨
    (dr = false ∧ passesFilters nf sk kc dm = true ∧ st.rm (dm.ns, dm.key) = none ∧
      st'.rm = st.rm ∧
      st'.recv = insertPair st.recv (dm.ns, dm.key) (writeResult none dm) ∧
      st'.writes = st.writes ++ [.createOp (.product rid) (dm.ns, dm.key) (writeResult none dm)] ∧
      st'.logs = st.logs ∧
      st'.total = st.total + 1 ∧ st'.copied = st.copied + 1 ∧
      st'.skipped_exists = st.skipped_exists ∧ st'.errors = st.errors ∧
      st'.skipped_ns = st.skipped_ns ∧ st'.skipped_unsynced = st.skipped_unsynced ∧
      st'.skipped_key = st.skipped_key) := by
  subst hst
  by_cases hb : dm.ns = "" ∨ dm.key = ""
  · left
    have hp : passesFilters nf sk kc dm = false := by
      rcases hb with h | h <;> simp [passesFilters, h]
    have hfn : failsNsFilter nf dm = false := by
      rcases hb with h | h <;> simp [failsNsFilter, h]
    have hfs : failsSyncFilter nf sk dm = false := by
      rcases hb with h | h <;> simp [failsSyncFilter, h]
    have hfk : failsKeyFilter nf sk kc dm = false := by
      rcases hb with h | h <;> simp [failsKeyFilter, h]
    simp [copyStepP, hb, hp, hfn, hfs, hfk]
  · push_neg at hb
    obtain ⟨hb1, hb2⟩ := hb
    have hbor : ¬(dm.ns = "" ∨ dm.key = "") := by
      intro h; rcases h with h | h; exact hb1 h; exact hb2 h
    by_cases hns : nsSkip nf dm.ns = true
    · left
      have hp : passesFilters nf sk kc dm = false := by
        simp [passesFilters, hns]
      have hfn : failsNsFilter nf dm = true := by
        simp [failsNsFilter, hb1, hb2, hns]
      have hfs : failsSyncFilter nf sk dm = false := by
        simp [failsSyncFilter, hns]
      have hfk : failsKeyFilter nf sk kc dm = false := by
        simp [failsKeyFilter, hns]
      simp [copyStepP, hbor, hns, hp, hfn, hfs, hfk]
    · replace hns : nsSkip nf dm.ns = false := by
        cases h : nsSkip nf dm.ns
        · rfl
        · exact absurd h hns
      by_cases hsy : syncSkip sk dm.key = true
      · left
        have hp : passesFilters nf sk kc dm = false := by
          simp [passesFilters, hsy]
        have hfn : failsNsFilter nf dm = false := by
          simp [failsNsFilter, hns]
        have hfs : failsSyncFilter nf sk dm = true := by
          simp [failsSyncFilter, hb1, hb2, hns, hsy]
        have hfk : failsKeyFilter nf sk kc dm = false := by
          simp [failsKeyFilter, hsy]
        simp [copyStepP, hbor, hns, hsy, hp, hfn, hfs, hfk]
      · replace hsy : syncSkip sk dm.key = false := by
          cases h : syncSkip sk dm.key
          · rfl
          · exact absurd h hsy
        by_cases hky : keySkip kc dm.key = true
        · left
          have hp : passesFilters nf sk kc dm = false := by
            simp [passesFilters, hky]
          have hfn : failsNsFilter nf dm = false := by
            simp [failsNsFilter, hns]
          have hfs : failsSyncFilter nf sk dm = false := by
            simp [failsSyncFilter, hsy]
          have hfk : failsKeyFilter nf sk kc dm = true := by
            simp [failsKeyFilter, hb1, hb2, hns, hsy, hky]
          simp [copyStepP, hbor, hns, hsy, hky, hp, hfn, hfs, hfk]
        · replace hky : keySkip kc dm.key = false := by
            cases h : keySkip kc dm.key
            · rfl
            · exact absurd h hky
          have hp : passesFilters nf sk kc dm = true := by
            simp [passesFilters, hb1, hb2, hns, hsy, hky]
          by_cases hgate : (st.rm (dm.ns, dm.key)).isSome = true ∧ ow = false
          · right; left
            have hstep : copyStepP nf kc sk ow dr rid st dm =
                { st with total := st.total + 1,
                          skipped_exists := st.skipped_exists + 1 } := by
              simp [copyStepP, hbor, hns, hsy, hky, hgate]
            rw [hstep]
            exact ⟨hp, hgate.1, hgate.2, rfl, rfl, rfl, rfl, rfl, rfl, rfl, rfl, rfl, rfl, rfl⟩
          · by_cases hdr : dr = true
            · right; right; left
              have hor : ow = true ∨ (st.rm (dm.ns, dm.key)).isSome = false := by
                by_cases hex : (st.rm (dm.ns, dm.key)).isSome = true
                · left
                  cases how : ow
                  · exact absurd ⟨hex, how⟩ hgate
                  · rfl
                · right
                  cases h : (st.rm (dm.ns, dm.key)).isSome
                  · rfl
                  · exact absurd h hex
              have hstep : copyStepP nf kc sk ow dr rid st dm =
                  { st with total := st.total + 1, copied := st.copied + 1,
                            logs := st.logs ++ [.dryRunLog (.product rid)
                              (if (st.rm (dm.ns, dm.key)).isSome then "UPDATE" else "CREATE")
                              dm.ns dm.key] } := by
                simp [copyStepP, hbor, hns, hsy, hky, hgate, hdr]
              rw [hstep]
              exact ⟨hdr, hp, hor, rfl, rfl, rfl, rfl, rfl, rfl, rfl, rfl, rfl, rfl, rfl⟩
            · replace hdr : dr = false := by
                cases h : dr
                · rfl
                · exact absurd h hdr
              cases hrx : st.rm (dm.ns, dm.key) with
              | some rex =>
                right; right; right; left
                have how : ow = true := by
                  cases h : ow
                  · exact absurd ⟨by simp [hrx], h⟩ hgate
                  · rfl
                have hstep : copyStepP nf kc sk ow dr rid st dm =
                    { st with total := st.total + 1, copied := st.copied + 1,
                              rm := insertPair st.rm (dm.ns, dm.key) (writeResult (some rex) dm),
                              recv := insertPair st.recv (dm.ns, dm.key)
                                (writeResult (some rex) dm),
                              writes := st.writes ++
                                [.updateOp (.product rid) (dm.ns, dm.key)
                                  (writeResult (some rex) dm)] } := by
                  simp [copyStepP, hbor, hns, hsy, hky, hdr, hrx, how, writeResult]
                rw [hstep]
                exact ⟨hdr, hp, how, ⟨rex, rfl, rfl, rfl, rfl⟩,
                  rfl, rfl, rfl, rfl, rfl, rfl, rfl, rfl⟩
              | none =>
                right; right; right; right
                have hstep : copyStepP nf kc sk ow dr rid st dm =
                    { st with total := st.total + 1, copied := st.copied + 1,
                              recv := insertPair st.recv (dm.ns, dm.key) (writeResult none dm),
                              writes := st.writes ++
                                [.createOp (.product rid) (dm.ns, dm.key)
                                  (writeResult none dm)] } := by
                  simp [copyStepP, hbor, hns, hsy, hky, hdr, hrx, writeResult]
                rw [hstep]
                exact ⟨hdr, hp, rfl, rfl, rfl, rfl, rfl, rfl, rfl, rfl, rfl, rfl, rfl, rfl⟩

lemma ite_tt_one : (if (true = true) then (1 : Nat) else 0) = 1 := by simp

lemma ite_ff_zero : (if (false = true) then (1 : Nat) else 0) = 0 := by simp

lemma countP_congr' {α : Type} (p q : α → Bool) (l : List α) (h : ∀ a ∈ l, p a = q a) :
    l.countP p = l.countP q :=
  List.countP_congr (fun a ha => by rw [h a ha])

/-- Counter characterization of the product-pass field loop: each counter of
the final state is the initial counter plus the number of donor fields in
the corresponding class, with existence judged against the initial receiver
map (whose domain the loop never changes). -/
lemma foldP_counts (nf kc sk : Option (List String)) (ow dr : Bool) (rid : Nat) :
    ∀ (donor : List Metafield) (st : PassState),
      (∀ q, ((List.foldl (copyStepP nf kc sk ow dr rid) st donor).rm q).isSome
          = (st.rm q).isSome) ∧
      (List.foldl (copyStepP nf kc sk ow dr rid) st donor).total
          = st.total + donor.countP (passesFilters nf sk kc) ∧
      (List.foldl (copyStepP nf kc sk ow dr rid) st donor).skipped_ns
          = st.skipped_ns + donor.countP (failsNsFilter nf) ∧
      (List.foldl (copyStepP nf kc sk ow dr rid) st donor).skipped_unsynced
          = st.skipped_unsynced + donor.countP (failsSyncFilter nf sk) ∧
      (List.foldl (copyStepP nf kc sk ow dr rid) st donor).skipped_key
          = st.skipped_key + donor.countP (failsKeyFilter nf sk kc) ∧
      (List.foldl (copyStepP nf kc sk ow dr rid) st donor).skipped_exists
          = st.skipped_exists + donor.countP
              (fun dm => passesFilters nf sk kc dm && isExisting st.rm dm && !ow) ∧
      (List.foldl (copyStepP nf kc sk ow dr rid) st donor).copied
          = st.copied + donor.countP
              (fun dm => passesFilters nf sk kc dm && (ow || !isExisting st.rm dm)) ∧
      (List.foldl (copyStepP nf kc sk ow dr rid) st donor).errors = st.errors := by
  intro donor
  induction donor with
  | nil => intro st; simp
  | cons dm rest ih =>
    intro st
    rw [List.foldl_cons]
    obtain ⟨ihrm, ihtot, ihns, ihsy, ihky, ihse, ihcp, iherr⟩ :=
      ih (copyStepP nf kc sk ow dr rid st dm)
    have hcases := copyStepP_cases nf kc sk ow dr rid st dm _ rfl
    -- facts about the single step, uniform over the five cases
    have hrm1 : ∀ q, ((copyStepP nf kc sk ow dr rid st dm).rm q).isSome = (st.rm q).isSome := by
      intro q
      rcases hcases with ⟨_, h, _⟩ | ⟨_, _, _, h, _⟩ | ⟨_, _, _, h, _⟩ |
        ⟨_, _, _, ⟨rex, hrx, h, _⟩, _⟩ | ⟨_, _, _, h, _⟩
      · rw [h]
      · rw [h]
      · rw [h]
      · rw [h]
        by_cases hq : q = (dm.ns, dm.key)
        · subst hq; simp [insertPair, hrx]
        · simp [insertPair, hq]
      · rw [h]
    have hex1 : ∀ d : Metafield,
        isExisting (copyStepP nf kc sk ow dr rid st dm).rm d = isExisting st.rm d := by
      intro d; simp [isExisting, hrm1]
    -- transfer the counting predicates from the stepped state back to `st`
    have hseP : rest.countP
        (fun d => passesFilters nf sk kc d &&
          isExisting (copyStepP nf kc sk ow dr rid st dm).rm d && !ow)
        = rest.countP (fun d => passesFilters nf sk kc d && isExisting st.rm d && !ow) :=
      countP_congr' _ _ _ (fun d _ => by rw [hex1])
    have hcpP : rest.countP
        (fun d => passesFilters nf sk kc d &&
          (ow || !isExisting (copyStepP nf kc sk ow dr rid st dm).rm d))
        = rest.countP (fun d => passesFilters nf sk kc d && (ow || !isExisting st.rm d)) :=
      countP_congr' _ _ _ (fun d _ => by rw [hex1])
    rw [hseP] at ihse
    rw [hcpP] at ihcp
    refine ⟨fun q => by rw [ihrm, hrm1], ?_, ?_, ?_, ?_, ?_, ?_, ?_⟩ <;>
      rcases hcases with ⟨hp, _, _, _, _, ht, hc, hse, herr, hns, hsy, hky⟩ |
        ⟨hp, hex, how, _, _, _, _, ht, hc, hse, herr, hns, hsy, hky⟩ |
        ⟨hdr, hp, hor, _, _, _, _, ht, hc, hse, herr, hns, hsy, hky⟩ |
        ⟨hdr, hp, how, ⟨rex, hrx, _, _, _⟩, _, ht, hc, hse, herr, hns, hsy, hky⟩ |
        ⟨hdr, hp, hrx, _, _, _, _, ht, hc, hse, herr, hns, hsy, hky⟩
    -- total
    · rw [ihtot, ht, List.countP_cons, hp, ite_ff_zero]; omega
    · rw [ihtot, ht, List.countP_cons, hp, ite_tt_one]; omega
    · rw [ihtot, ht, List.countP_cons, hp, ite_tt_one]; omega
    · rw [ihtot, ht, List.countP_cons, hp, ite_tt_one]; omega
    · rw [ihtot, ht, List.countP_cons, hp, ite_tt_one]; omega
    -- skipped_ns
    · rw [ihns, hns, List.countP_cons]; omega
    · rw [ihns, hns, List.countP_cons, (fails_of_passes nf sk kc dm hp).1, ite_ff_zero]; omega
    · rw [ihns, hns, List.countP_cons, (fails_of_passes nf sk kc dm hp).1, ite_ff_zero]; omega
    · rw [ihns, hns, List.countP_cons, (fails_of_passes nf sk kc dm hp).1, ite_ff_zero]; omega
    · rw [ihns, hns, List.countP_cons, (fails_of_passes nf sk kc dm hp).1, ite_ff_zero]; omega
    -- skipped_unsynced
    · rw [ihsy, hsy, List.countP_cons]; omega
    · rw [ihsy, hsy, List.countP_cons, (fails_of_passes nf sk kc dm hp).2.1, ite_ff_zero]; omega
    · rw [ihsy, hsy, List.countP_cons, (fails_of_passes nf sk kc dm hp).2.1, ite_ff_zero]; omega
    · rw [ihsy, hsy, List.countP_cons, (fails_of_passes nf sk kc dm hp).2.1, ite_ff_zero]; omega
    · rw [ihsy, hsy, List.countP_cons, (fails_of_passes nf sk kc dm hp).2.1, ite_ff_zero]; omega
    -- skipped_key
    · rw [ihky, hky, List.countP_cons]; omega
    · rw [ihky, hky, List.countP_cons, (fails_of_passes nf sk kc dm hp).2.2, ite_ff_zero]; omega
    · rw [ihky, hky, List.countP_cons, (fails_of_passes nf sk kc dm hp).2.2, ite_ff_zero]; omega
    · rw [ihky, hky, List.countP_cons, (fails_of_passes nf sk kc dm hp).2.2, ite_ff_zero]; omega
    · rw [ihky, hky, List.countP_cons, (fails_of_passes nf sk kc dm hp).2.2, ite_ff_zero]; omega
    -- skipped_exists
    · have hval : (passesFilters nf sk kc dm && isExisting st.rm dm && !ow) = false := by
        simp [hp]
      rw [ihse, hse, List.countP_cons, hval, ite_ff_zero]; omega
    · have hval : (passesFilters nf sk kc dm && isExisting st.rm dm && !ow) = true := by
        simp [hp, isExisting, hex, how]
      rw [ihse, hse, List.countP_cons, hval, ite_tt_one]; omega
    · have hval : (passesFilters nf sk kc dm && isExisting st.rm dm && !ow) = false := by
        rcases hor with h | h
        · simp [h]
        · simp [isExisting, h]
      rw [ihse, hse, List.countP_cons, hval, ite_ff_zero]; omega
    · have hval : (passesFilters nf sk kc dm && isExisting st.rm dm && !ow) = false := by
        simp [how]
      rw [ihse, hse, List.countP_cons, hval, ite_ff_zero]; omega
    · have hval : (passesFilters nf sk kc dm && isExisting st.rm dm && !ow) = false := by
        simp [isExisting, hrx]
      rw [ihse, hse, List.countP_cons, hval, ite_ff_zero]; omega
    -- copied
    · have hval : (passesFilters nf sk kc dm && (ow || !isExisting st.rm dm)) = false := by
        simp [hp]
      rw [ihcp, hc, List.countP_cons, hval, ite_ff_zero]; omega
    · have hval : (passesFilters nf sk kc dm && (ow || !isExisting st.rm dm)) = false := by
        simp [hp, how, isExisting, hex]
      rw [ihcp, hc, List.countP_cons, hval, ite_ff_zero]; omega
    · have hval : (passesFilters nf sk kc dm && (ow || !isExisting st.rm dm)) = true := by
        rcases hor with h | h
        · simp [hp, h]
        · simp [hp, isExisting, h]
      rw [ihcp, hc, List.countP_cons, hval, ite_tt_one]; omega
    · have hval : (passesFilters nf sk kc dm && (ow || !isExisting st.rm dm)) = true := by
        simp [hp, how]
      rw [ihcp, hc, List.countP_cons, hval, ite_tt_one]; omega
    · have hval : (passesFilters nf sk kc dm && (ow || !isExisting st.rm dm)) = true := by
        simp [hp, isExisting, hrx]
      rw [ihcp, hc, List.countP_cons, hval, ite_tt_one]; omega
    -- errors
    · rw [iherr, herr]
    · rw [iherr, herr]
    · rw [iherr, herr]
    · rw [iherr, herr]
    · rw [iherr, herr]

/-- In dry-run mode the field loop touches neither the receiver map nor the
remote state and issues no writes. -/
lemma foldP_dry (nf kc sk : Option (List String)) (ow : Bool) (rid : Nat) :
    ∀ (donor : List Metafield) (st : PassState),
      (List.foldl (copyStepP nf kc sk ow true rid) st donor).rm = st.rm ∧
      (List.foldl (copyStepP nf kc sk ow true rid) st donor).recv = st.recv ∧
      (List.foldl (copyStepP nf kc sk ow true rid) st donor).writes = st.writes := by
  intro donor
  induction donor with
  | nil => intro st; exact ⟨rfl, rfl, rfl⟩
  | cons dm rest ih =>
    intro st
    rw [List.foldl_cons]
    obtain ⟨ihrm, ihrecv, ihw⟩ := ih (copyStepP nf kc sk ow true rid st dm)
    rcases copyStepP_cases nf kc sk ow true rid st dm _ rfl with
      ⟨_, h1, h2, h3, _⟩ | ⟨_, _, _, h1, h2, h3, _⟩ | ⟨_, _, _, h1, h2, h3, _⟩ |
      ⟨hdr, _⟩ | ⟨hdr, _⟩
    · exact ⟨ihrm.trans h1, ihrecv.trans h2, ihw.trans h3⟩
    · exact ⟨ihrm.trans h1, ihrecv.trans h2, ihw.trans h3⟩
    · exact ⟨ihrm.trans h1, ihrecv.trans h2, ihw.trans h3⟩
    · exact absurd hdr (by decide)
    · exact absurd hdr (by decide)

/-- Provenance of writes: every write the field loop issues addresses the
(namespace, key) slot of a donor field that passed all three filters and the
overwrite gate. -/
lemma foldP_writes (nf kc sk : Option (List String)) (ow dr : Bool) (rid : Nat) :
    ∀ (donor : List Metafield) (st : PassState) (w : WriteOp),
      w ∈ (List.foldl (copyStepP nf kc sk ow dr rid) st donor).writes →
      w ∈ st.writes ∨ ∃ dm, dm ∈ donor ∧ passesFilters nf sk kc dm = true ∧
        (ow = true ∨ isExisting st.rm dm = false) ∧ w.pair = (dm.ns, dm.key) := by
  intro donor
  induction donor with
  | nil => intro st w hw; exact Or.inl hw
  | cons dm rest ih =>
    intro st w hw
    rw [List.foldl_cons] at hw
    have hrm1 : ∀ q, ((copyStepP nf kc sk ow dr rid st dm).rm q).isSome = (st.rm q).isSome :=
      (foldP_counts nf kc sk ow dr rid [dm] st).1
    rcases ih (copyStepP nf kc sk ow dr rid st dm) w hw with hmem | ⟨d, hd, hp, hgate, hpair⟩
    · rcases copyStepP_cases nf kc sk ow dr rid st dm _ rfl with
        ⟨_, _, _, h3, _⟩ | ⟨_, _, _, _, _, h3, _⟩ | ⟨_, _, _, _, _, h3, _⟩ |
        ⟨_, hp, how, ⟨rex, hrx, _, _, h3⟩, _⟩ | ⟨_, hp, hrx, _, _, h3, _⟩
      · rw [h3] at hmem; exact Or.inl hmem
      · rw [h3] at hmem; exact Or.inl hmem
      · rw [h3] at hmem; exact Or.inl hmem
      · rw [h3] at hmem
        rcases List.mem_append.mp hmem with h | h
        · exact Or.inl h
        · right
          refine ⟨dm, List.mem_cons_self dm rest, hp, Or.inl how, ?_⟩
          rcases List.mem_singleton.mp h with rfl
          rfl
      · rw [h3] at hmem
        rcases List.mem_append.mp hmem with h | h
        · exact Or.inl h
        · right
          refine ⟨dm, List.mem_cons_self dm rest, hp, ?_, ?_⟩
          · right; simp [isExisting, hrx]
          · rcases List.mem_singleton.mp h with rfl
            rfl
    · right
      refine ⟨d, List.mem_cons_of_mem dm hd, hp, ?_, hpair⟩
      rcases hgate with h | h
      · exact Or.inl h
      · right
        rw [← h]
        simp [isExisting, hrm1]

/-- With `overwrite=false` the field loop never updates: the receiver map is
untouched, every write is a create addressed at a slot that was empty before
the pass, and the remote state at every initially-present slot is
unchanged. -/
lemma foldP_ow_false (nf kc sk : Option (List String)) (dr : Bool) (rid : Nat) :
    ∀ (donor : List Metafield) (st : PassState),
      (List.foldl (copyStepP nf kc sk false dr rid) st donor).rm = st.rm ∧
      (∀ q, (st.rm q).isSome = true →
        (List.foldl (copyStepP nf kc sk false dr rid) st donor).recv q = st.recv q) ∧
      (∀ w, w ∈ (List.foldl (copyStepP nf kc sk false dr rid) st donor).writes →
        w ∈ st.writes ∨ (w.isCreate = true ∧ st.rm w.pair = none)) := by
  intro donor
  induction donor with
  | nil => intro st; exact ⟨rfl, fun _ _ => rfl, fun _ hw => Or.inl hw⟩
  | cons dm rest ih =>
    intro st
    rw [List.foldl_cons]
    obtain ⟨ihrm, ihrecv, ihw⟩ := ih (copyStepP nf kc sk false dr rid st dm)
    rcases copyStepP_cases nf kc sk false dr rid st dm _ rfl with
      ⟨_, h1, h2, h3, _⟩ | ⟨_, _, _, h1, h2, h3, _⟩ | ⟨_, _, _, h1, h2, h3, _⟩ |
      ⟨_, _, how, _⟩ | ⟨_, hp, hrx, h1, h2, h3, _⟩
    · exact ⟨ihrm.trans h1,
        fun q hq => by rw [ihrecv q (by rw [h1]; exact hq), h2],
        fun w hw => by
          rcases ihw w hw with h | ⟨hc, hn⟩
          · rw [h3] at h; exact Or.inl h
          · rw [h1] at hn; exact Or.inr ⟨hc, hn⟩⟩
    · exact ⟨ihrm.trans h1,
        fun q hq => by rw [ihrecv q (by rw [h1]; exact hq), h2],
        fun w hw => by
          rcases ihw w hw with h | ⟨hc, hn⟩
          · rw [h3] at h; exact Or.inl h
          · rw [h1] at hn; exact Or.inr ⟨hc, hn⟩⟩
    · exact ⟨ihrm.trans h1,
        fun q hq => by rw [ihrecv q (by rw [h1]; exact hq), h2],
        fun w hw => by
          rcases ihw w hw with h | ⟨hc, hn⟩
          · rw [h3] at h; exact Or.inl h
          · rw [h1] at hn; exact Or.inr ⟨hc, hn⟩⟩
    · exact absurd how (by decide)
    · refine ⟨ihrm.trans h1, ?_, ?_⟩
      · intro q hq
        have hne : q ≠ (dm.ns, dm.key) := by
          intro h
          rw [h, hrx] at hq
          simp at hq
        rw [ihrecv q (by rw [h1]; exact hq), h2]
        exact insertPair_lookup_other st.recv (dm.ns, dm.key) q (writeResult none dm) hne
      · intro w hw
        rcases ihw w hw with h | ⟨hc, hn⟩
        · rw [h3] at h
          rcases List.mem_append.mp h with h | h
          · exact Or.inl h
          · rcases List.mem_singleton.mp h with rfl
            exact Or.inr ⟨rfl, hrx⟩
        · rw [h1] at hn; exact Or.inr ⟨hc, hn⟩

/-- Frame: the field loop changes the receiver state and map only at the
(namespace, key) slots of donor fields. -/
lemma foldP_frame (nf kc sk : Option (List String)) (ow dr : Bool) (rid : Nat) :
    ∀ (donor : List Metafield) (st : PassState) (q : String × String),
      (∀ dm ∈ donor, (dm.ns, dm.key) ≠ q) →
      (List.foldl (copyStepP nf kc sk ow dr rid) st donor).recv q = st.recv q ∧
      (List.foldl (copyStepP nf kc sk ow dr rid) st donor).rm q = st.rm q := by
  intro donor
  induction donor with
  | nil => intro st q _; exact ⟨rfl, rfl⟩
  | cons dm rest ih =>
    intro st q hq
    rw [List.foldl_cons]
    have hqd : (dm.ns, dm.key) ≠ q := hq dm (List.mem_cons_self dm rest)
    have hqd' : q ≠ (dm.ns, dm.key) := fun h => hqd h.symm
    obtain ⟨ihrecv, ihrm⟩ := ih (copyStepP nf kc sk ow dr rid st dm) q
      (fun d hd => hq d (List.mem_cons_of_mem dm hd))
    rcases copyStepP_cases nf kc sk ow dr rid st dm _ rfl with
      ⟨_, h1, h2, _⟩ | ⟨_, _, _, h1, h2, _⟩ | ⟨_, _, _, h1, h2, _⟩ |
      ⟨_, _, _, ⟨rex, hrx, h1, h2, _⟩, _⟩ | ⟨_, _, _, h1, h2, _⟩
    · exact ⟨by rw [ihrecv, h2], by rw [ihrm, h1]⟩
    · exact ⟨by rw [ihrecv, h2], by rw [ihrm, h1]⟩
    · exact ⟨by rw [ihrecv, h2], by rw [ihrm, h1]⟩
    · refine ⟨?_, ?_⟩
      · rw [ihrecv, h2]
        exact insertPair_lookup_other st.recv (dm.ns, dm.key) q _ hqd'
      · rw [ihrm, h1]
        exact insertPair_lookup_other st.rm (dm.ns, dm.key) q _ hqd'
    · refine ⟨?_, ?_⟩
      · rw [ihrecv, h2]
        exact insertPair_lookup_other st.recv (dm.ns, dm.key) q _ hqd'
      · rw [ihrm, h1]

/-- Writing the same donor field onto the result of a previous write of it
changes nothing: the coerced value is the same and the type-upgrade rule is
idempotent. -/
lemma writeResult_stable (old : Option Metafield) (dm : Metafield) :
    writeResult (some (writeResult old dm)) dm = writeResult old dm := by
  have hm : (if dm.type = "" then "string" else dm.type) ≠ "" := by
    by_cases h : dm.type = "" <;> simp [h]
  cases old with
  | none =>
    by_cases hs : (if dm.type = "" then "string" else dm.type) = "string"
    · simp [writeResult, hs]
    · simp [writeResult, hs, hm]
  | some rex =>
    by_cases hr : rex.type = "" ∨ rex.type = "string"
    · by_cases hs : (if dm.type = "" then "string" else dm.type) = "string"
      · simp [writeResult, hr, hs]
      · simp [writeResult, hr, hs, hm]
    · have hr' : ¬(rex.type = "" ∨ rex.type = "string") := hr
      simp [writeResult, hr']

/-- Characterization of a live, overwrite-enabled pass at the slot of each
donor field that passes the filters: the final remote state there is exactly
the written field, computed from the slot's initial occupant. -/
lemma foldP_char (nf kc sk : Option (List String)) (rid : Nat) :
    ∀ (donor : List Metafield) (st : PassState),
      (donor.map (fun d => (d.ns, d.key))).Nodup →
      ∀ dm ∈ donor, passesFilters nf sk kc dm = true →
        (List.foldl (copyStepP nf kc sk true false rid) st donor).recv (dm.ns, dm.key)
          = some (writeResult (st.rm (dm.ns, dm.key)) dm) := by
  intro donor
  induction donor with
  | nil => intro st _ dm hdm; exact absurd hdm (List.not_mem_nil dm)
  | cons d0 rest ih =>
    intro st hnd dm hdm hp
    rw [List.foldl_cons]
    have hnd' : (rest.map (fun d => (d.ns, d.key))).Nodup := (List.nodup_cons.mp hnd).2
    have hd0 : (d0.ns, d0.key) ∉ rest.map (fun d => (d.ns, d.key)) := (List.nodup_cons.mp hnd).1
    rcases List.mem_cons.mp hdm with rfl | hdm'
    · -- the head field: the step writes the slot, the rest of the pass avoids it
      have hframe := foldP_frame nf kc sk true false rid rest
        (copyStepP nf kc sk true false rid st dm) (dm.ns, dm.key)
        (fun d hd => by
          intro h
          exact hd0 (h ▸ List.mem_map_of_mem (fun d => (d.ns, d.key)) hd))
      rw [hframe.1]
      rcases copyStepP_cases nf kc sk true false rid st dm _ rfl with
        ⟨hp', _⟩ | ⟨_, _, how, _⟩ | ⟨hdr, _⟩ |
        ⟨_, _, _, ⟨rex, hrx, _, h2, _⟩, _⟩ | ⟨_, _, hrx, _, h2, _⟩
      · rw [hp'] at hp; exact absurd hp (by decide)
      · exact absurd how (by decide)
      · exact absurd hdr (by decide)
      · rw [h2, hrx, insertPair_lookup_self]
      · rw [h2, hrx, insertPair_lookup_self]
    · -- a later field: the head step does not touch its slot
      have hne : (dm.ns, dm.key) ≠ (d0.ns, d0.key) := by
        intro h
        exact hd0 (h ▸ List.mem_map_of_mem (fun d => (d.ns, d.key)) hdm')
      have hrm : (copyStepP nf kc sk true false rid st d0).rm (dm.ns, dm.key)
          = st.rm (dm.ns, dm.key) := by
        rcases copyStepP_cases nf kc sk true false rid st d0 _ rfl with
          ⟨_, h1, _⟩ | ⟨_, _, _, h1, _⟩ | ⟨_, _, _, h1, _⟩ |
          ⟨_, _, _, ⟨rex, hrx, h1, _⟩, _⟩ | ⟨_, _, _, h1, _⟩
        · rw [h1]
        · rw [h1]
        · rw [h1]
        · rw [h1]
          exact insertPair_lookup_other st.rm (d0.ns, d0.key) (dm.ns, dm.key) _ hne
        · rw [h1]
      rw [ih (copyStepP nf kc sk true false rid st d0) hnd' dm hdm' hp, hrm]

/-- A live, overwrite-enabled pass over a state in which every passing donor
field's slot already holds a stable occupant changes nothing and issues only
updates. -/
lemma foldP_idem (nf kc sk : Option (List String)) (rid : Nat) :
    ∀ (donor : List Metafield) (st : PassState),
      (∀ dm ∈ donor, passesFilters nf sk kc dm = true →
        ∃ f, st.rm (dm.ns, dm.key) = some f ∧ writeResult (some f) dm = f) →
      st.recv = st.rm →
      (List.foldl (copyStepP nf kc sk true false rid) st donor).recv = st.recv ∧
      (List.foldl (copyStepP nf kc sk true false rid) st donor).rm = st.rm ∧
      (∀ w ∈ (List.foldl (copyStepP nf kc sk true false rid) st donor).writes,
        w ∈ st.writes ∨ w.isUpdate = true) := by
  intro donor
  induction donor with
  | nil => intro st _ _; exact ⟨rfl, rfl, fun w hw => Or.inl hw⟩
  | cons dm rest ih =>
    intro st hstable heq
    rw [List.foldl_cons]
    have hrest : ∀ d ∈ rest, passesFilters nf sk kc d = true →
        ∃ f, st.rm (d.ns, d.key) = some f ∧ writeResult (some f) d = f :=
      fun d hd => hstable d (List.mem_cons_of_mem dm hd)
    rcases copyStepP_cases nf kc sk true false rid st dm _ rfl with
      ⟨_, h1, h2, h3, _⟩ | ⟨_, _, how, _⟩ | ⟨hdr, _⟩ |
      ⟨_, hp, _, ⟨rex, hrx, h1, h2, h3⟩, _⟩ | ⟨_, hp, hrx, _⟩
    · obtain ⟨ihrecv, ihrm, ihw⟩ := ih (copyStepP nf kc sk true false rid st dm)
        (fun d hd hp => by rw [h1]; exact hrest d hd hp)
        (by rw [h1, h2]; exact heq)
      refine ⟨ihrecv.trans h2, ihrm.trans h1, fun w hw => ?_⟩
      rcases ihw w hw with h | h
      · rw [h3] at h; exact Or.inl h
      · exact Or.inr h
    · exact absurd how (by decide)
    · exact absurd hdr (by decide)
    · obtain ⟨f, hf, hwf⟩ := hstable dm (List.mem_cons_self dm rest) hp
      have hrexf : rex = f := by
        rw [hrx] at hf
        exact Option.some.inj hf
      subst hrexf
      have hins_rm : insertPair st.rm (dm.ns, dm.key) (writeResult (some rex) dm) = st.rm := by
        rw [hwf]
        exact insertPair_self st.rm (dm.ns, dm.key) rex hrx
      have hins_recv : insertPair st.recv (dm.ns, dm.key) (writeResult (some rex) dm)
          = st.recv := by
        rw [hwf]
        exact insertPair_self st.recv (dm.ns, dm.key) rex (by rw [heq]; exact hrx)
      obtain ⟨ihrecv, ihrm, ihw⟩ := ih (copyStepP nf kc sk true false rid st dm)
        (fun d hd hp' => by rw [h1, hins_rm]; exact hrest d hd hp')
        (by rw [h1, h2, hins_rm, hins_recv]; exact heq)
      refine ⟨by rw [ihrecv, h2, hins_recv], by rw [ihrm, h1, hins_rm], fun w hw => ?_⟩
      rcases ihw w hw with h | h
      · rw [h3] at h
        rcases List.mem_append.mp h with h' | h'
        · exact Or.inl h'
        · rcases List.mem_singleton.mp h' with rfl
          exact Or.inr rfl
      · exact Or.inr h
    · obtain ⟨f, hf, _⟩ := hstable dm (List.mem_cons_self dm rest) hp
      rw [hrx] at hf
      exact absurd hf (by simp)

lemma countAction_append_log (l : List LogMsg) (m : LogMsg) (a : String) :
    countAction (l ++ [m]) a = countAction l a + (if m.action == a then 1 else 0) := by
  simp [countAction, List.countP_append, List.countP_cons]

lemma countCreates_append (ws : List WriteOp) (w : WriteOp) :
    countCreates (ws ++ [w]) = countCreates ws + (if w.isCreate then 1 else 0) := by
  simp [countCreates, List.countP_append, List.countP_cons]

lemma countUpdates_append (ws : List WriteOp) (w : WriteOp) :
    countUpdates (ws ++ [w]) = countUpdates ws + (if w.isUpdate then 1 else 0) := by
  simp [countUpdates, List.countP_append, List.countP_cons]

/-- Dry-run and live runs over states with the same slot occupancy classify
identically: the dry run's per-field CREATE/UPDATE log entries are in
one-to-one correspondence with the live run's create/update writes. -/
lemma foldP_dry_live (nf kc sk : Option (List String)) (ow : Bool) (rid : Nat) :
    ∀ (donor : List Metafield) (stD stL : PassState),
      (∀ q, (stD.rm q).isSome = (stL.rm q).isSome) →
      countAction (List.foldl (copyStepP nf kc sk ow true rid) stD donor).logs "CREATE"
          + countCreates stL.writes
        = countCreates (List.foldl (copyStepP nf kc sk ow false rid) stL donor).writes
          + countAction stD.logs "CREATE" ∧
      countAction (List.foldl (copyStepP nf kc sk ow true rid) stD donor).logs "UPDATE"
          + countUpdates stL.writes
        = countUpdates (List.foldl (copyStepP nf kc sk ow false rid) stL donor).writes
          + countAction stD.logs "UPDATE" := by
  intro donor
  induction donor with
  | nil => intro stD stL _; exact ⟨Nat.add_comm _ _, Nat.add_comm _ _⟩
  | cons dm rest ih =>
    intro stD stL hinv
    rw [List.foldl_cons, List.foldl_cons]
    have hinv1 : ∀ q, ((copyStepP nf kc sk ow true rid stD dm).rm q).isSome
        = ((copyStepP nf kc sk ow false rid stL dm).rm q).isSome := by
      intro q
      have hd : ((copyStepP nf kc sk ow true rid stD dm).rm q).isSome = (stD.rm q).isSome :=
        (foldP_counts nf kc sk ow true rid [dm] stD).1 q
      have hl : ((copyStepP nf kc sk ow false rid stL dm).rm q).isSome = (stL.rm q).isSome :=
        (foldP_counts nf kc sk ow false rid [dm] stL).1 q
      rw [hd, hl, hinv]
    obtain ⟨ihc, ihu⟩ := ih (copyStepP nf kc sk ow true rid stD dm)
      (copyStepP nf kc sk ow false rid stL dm) hinv1
    have hexDL : (stD.rm (dm.ns, dm.key)).isSome = (stL.rm (dm.ns, dm.key)).isSome :=
      hinv (dm.ns, dm.key)
    rcases copyStepP_cases nf kc sk ow true rid stD dm _ rfl with
      ⟨hpD, _, _, _, hlogD, _⟩ | ⟨hpD, hexD, howD, _, _, _, hlogD, _⟩ |
      ⟨_, hpD, horD, _, _, _, hlogD, _⟩ | ⟨hdrD, _⟩ | ⟨hdrD, _⟩
    · -- dry side filtered: live side must be filtered too
      rcases copyStepP_cases nf kc sk ow false rid stL dm _ rfl with
        ⟨_, _, _, hwL, _⟩ | ⟨hpL, _⟩ | ⟨hdrL, _⟩ | ⟨_, hpL, _⟩ | ⟨_, hpL, _⟩
      · rw [hlogD, hwL] at ihc ihu
        exact ⟨ihc, ihu⟩
      · rw [hpL] at hpD; exact absurd hpD (by decide)
      · exact absurd hdrL (by decide)
      · rw [hpL] at hpD; exact absurd hpD (by decide)
      · rw [hpL] at hpD; exact absurd hpD (by decide)
    · -- dry side gated: live side gated too
      rcases copyStepP_cases nf kc sk ow false rid stL dm _ rfl with
        ⟨hpL, _⟩ | ⟨_, _, _, _, _, hwL, _⟩ | ⟨hdrL, _⟩ |
        ⟨_, _, howL, _⟩ | ⟨_, _, hrxL, _⟩
      · rw [hpD] at hpL; exact absurd hpL (by decide)
      · rw [hlogD, hwL] at ihc ihu
        exact ⟨ihc, ihu⟩
      · exact absurd hdrL (by decide)
      · rw [howL] at howD; exact absurd howD (by decide)
      · rw [hrxL] at hexDL
        rw [hexD] at hexDL
        exact absurd hexDL (by decide)
    · -- dry side logs the classification: live side writes it
      rcases copyStepP_cases nf kc sk ow false rid stL dm _ rfl with
        ⟨hpL, _⟩ | ⟨hpL, hexL, howL, _⟩ | ⟨hdrL, _⟩ |
        ⟨_, _, _, ⟨rex, hrxL, _, _, hwL⟩, _⟩ | ⟨_, _, hrxL, _, _, hwL, _⟩
      · rw [hpL] at hpD; exact absurd hpD (by decide)
      · rcases horD with h | h
        · rw [h] at howL; exact absurd howL (by decide)
        · rw [hexL] at hexDL
          rw [hexDL] at h
          exact absurd h (by decide)
      · exact absurd hdrL (by decide)
      · -- live update: the dry log action is UPDATE
        have hexDt : (stD.rm (dm.ns, dm.key)).isSome = true := by
          rw [hexDL, hrxL]; rfl
        rw [hexDt] at hlogD
        rw [hlogD, hwL] at ihc ihu
        rw [countAction_append_log, countCreates_append] at ihc
        rw [countAction_append_log, countUpdates_append] at ihu
        have e1 : ((LogMsg.dryRunLog (.product rid)
            (if true = true then "UPDATE" else "CREATE") dm.ns dm.key).action
              == "CREATE") = false := rfl
        have e2 : ((LogMsg.dryRunLog (.product rid)
            (if true = true then "UPDATE" else "CREATE") dm.ns dm.key).action
              == "UPDATE") = true := rfl
        have e3 : (WriteOp.updateOp (.product rid) (dm.ns, dm.key)
            (writeResult (some rex) dm)).isCreate = false := rfl
        have e4 : (WriteOp.updateOp (.product rid) (dm.ns, dm.key)
            (writeResult (some rex) dm)).isUpdate = true := rfl
        rw [e1, e3] at ihc
        rw [e2, e4] at ihu
        simp only [if_true, if_false] at ihc ihu
        constructor
        · omega
        · omega
      · -- live create: the dry log action is CREATE
        have hexDf : (stD.rm (dm.ns, dm.key)).isSome = false := by
          rw [hexDL, hrxL]; rfl
        rw [hexDf] at hlogD
        rw [hlogD, hwL] at ihc ihu
        rw [countAction_append_log, countCreates_append] at ihc
        rw [countAction_append_log, countUpdates_append] at ihu
        have e1 : ((LogMsg.dryRunLog (.product rid)
            (if false = true then "UPDATE" else "CREATE") dm.ns dm.key).action
              == "CREATE") = true := rfl
        have e2 : ((LogMsg.dryRunLog (.product rid)
            (if false = true then "UPDATE" else "CREATE") dm.ns dm.key).action
              == "UPDATE") = false := rfl
        have e3 : (WriteOp.createOp (.product rid) (dm.ns, dm.key)
            (writeResult none dm)).isCreate = true := rfl
        have e4 : (WriteOp.createOp (.product rid) (dm.ns, dm.key)
            (writeResult none dm)).isUpdate = false := rfl
        rw [e1, e3] at ihc
        rw [e2, e4] at ihu
        simp only [if_true, if_false] at ihc ihu
        constructor
        · omega
        · omega
    · exact absurd hdrD (by decide)
    · exact absurd hdrD (by decide)

/-! ## The variant-pass step: the same case analysis

The inner field loop of `copy_variant_metafields` has the same
branch shape as the product pass (there is no per-field `total` counter; the
source's `total_mf` is never incremented), with writes owned by the receiver
variant. -/

lemma copyStepV_cases (nf kc sk : Option (List String)) (ow dr : Bool) (rvid : Nat)
    (st : VFieldState) (dm : Metafield) (st' : VFieldState)
    (hst : st' = copyStepV nf kc sk ow dr rvid st dm) :
    (passesFilters nf sk kc dm = false ∧
      st'.rm = st.rm ∧ st'.recv = st.recv ∧ st'.writes = st.writes ∧ st'.logs = st.logs ∧
      st'.total_copied = st.total_copied ∧
      st'.total_skipped_exists = st.total_skipped_exists ∧ st'.total_errors = st.total_errors ∧
      st'.total_skipped_ns = st.total_skipped_ns + (if failsNsFilter nf dm then 1 else 0) ∧
      st'.total_skipped_unsynced
        = st.total_skipped_unsynced + (if failsSyncFilter nf sk dm then 1 else 0) ∧
      st'.total_skipped_key
        = st.total_skipped_key + (if failsKeyFilter nf sk kc dm then 1 else 0)) ∨
    (passesFilters nf sk kc dm = true ∧ (st.rm (dm.ns, dm.key)).isSome = true ∧ ow = false ∧
      st'.rm = st.rm ∧ st'.recv = st.recv ∧ st'.writes = st.writes ∧ st'.logs = st.logs ∧
      st'.total_copied = st.total_copied ∧
      st'.total_skipped_exists = st.total_skipped_exists + 1 ∧
      st'.total_errors = st.total_errors ∧
      st'.total_skipped_ns = st.total_skipped_ns ∧
      st'.total_skipped_unsynced = st.total_skipped_unsynced ∧
      st'.total_skipped_key = st.total_skipped_key) ∨
    (dr = true ∧ passesFilters nf sk kc dm = true ∧
      (ow = true ∨ (st.rm (dm.ns, dm.key)).isSome = false) ∧
      st'.rm = st.rm ∧ st'.recv = st.recv ∧ st'.writes = st.writes ∧
      st'.logs = st.logs ++ [.dryRunLog (.variant rvid)
        (if (st.rm (dm.ns, dm.key)).isSome then "UPDATE" else "CREATE") dm.ns dm.key] ∧
      st'.total_copied = st.total_copied + 1 ∧
      st'.total_skipped_exists = st.total_skipped_exists ∧
      st'.total_errors = st.total_errors ∧
      st'.total_skipped_ns = st.total_skipped_ns ∧
      st'.total_skipped_unsynced = st.total_skipped_unsynced ∧
      st'.total_skipped_key = st.total_skipped_key) ∨
    (dr = false ∧ passesFilters nf sk kc dm = true ∧ ow = true ∧
      (∃ rex, st.rm (dm.ns, dm.key) = some rex ∧
        st'.rm = insertPair st.rm (dm.ns, dm.key) (writeResult (some rex) dm) ∧
        st'.recv = insertPair st.recv (dm.ns, dm.key) (writeResult (some rex) dm) ∧
        st'.writes = st.writes ++
          [.updateOp (.variant rvid) (dm.ns, dm.key) (writeResult (some rex) dm)]) ∧
      st'.logs = st.logs ∧
      st'.total_copied = st.total_copied + 1 ∧
      st'.total_skipped_exists = st.total_skipped_exists ∧
      st'.total_errors = st.total_errors ∧
      st'.total_skipped_ns = st.total_skipped_ns ∧
      st'.total_skipped_unsynced = st.total_skipped_unsynced ∧
      st'.total_skipped_key = st.total_skipped_key) ∨
    (dr = false ∧ passesFilters nf sk kc dm = true ∧ st.rm (dm.ns, dm.key) = none ∧
      st'.rm = st.rm ∧
      st'.recv = insertPair st.recv (dm.ns, dm.key) (writeResult none dm) ∧
      st'.writes = st.writes ++ [.createOp (.variant rvid) (dm.ns, dm.key) (writeResult none dm)] ∧
      st'.logs = st.logs ∧
      st'.total_copied = st.total_copied + 1 ∧
      st'.total_skipped_exists = st.total_skipped_exists ∧
      st'.total_errors = st.total_errors ∧
      st'.total_skipped_ns = st.total_skipped_ns ∧
      st'.total_skipped_unsynced = st.total_skipped_unsynced ∧
      st'.total_skipped_key = st.total_skipped_key) := by
  subst hst
  by_cases hb : dm.ns = "" ∨ dm.key = ""
  · left
    have hp : passesFilters nf sk kc dm = false := by
      rcases hb with h | h <;> simp [passesFilters, h]
    have hfn : failsNsFilter nf dm = false := by
      rcases hb with h | h <;> simp [failsNsFilter, h]
    have hfs : failsSyncFilter nf sk dm = false := by
      rcases hb with h | h <;> simp [failsSyncFilter, h]
    have hfk : failsKeyFilter nf sk kc dm = false := by
      rcases hb with h | h <;> simp [failsKeyFilter, h]
    simp [copyStepV, hb, hp, hfn, hfs, hfk]
  · push_neg at hb
    obtain ⟨hb1, hb2⟩ := hb
    have hbor : ¬(dm.ns = "" ∨ dm.key = "") := by
      intro h; rcases h with h | h; exact hb1 h; exact hb2 h
    by_cases hns : nsSkip nf dm.ns = true
    · left
      have hp : passesFilters nf sk kc dm = false := by
        simp [passesFilters, hns]
      have hfn : failsNsFilter nf dm = true := by
        simp [failsNsFilter, hb1, hb2, hns]
      have hfs : failsSyncFilter nf sk dm = false := by
        simp [failsSyncFilter, hns]
      have hfk : failsKeyFilter nf sk kc dm = false := by
        simp [failsKeyFilter, hns]
      simp [copyStepV, hbor, hns, hp, hfn, hfs, hfk]
    · replace hns : nsSkip nf dm.ns = false := by
        cases h : nsSkip nf dm.ns
        · rfl
        · exact absurd h hns
      by_cases hsy : syncSkip sk dm.key = true
      · left
        have hp : passesFilters nf sk kc dm = false := by
          simp [passesFilters, hsy]
        have hfn : failsNsFilter nf dm = false := by
          simp [failsNsFilter, hns]
        have hfs : failsSyncFilter nf sk dm = true := by
          simp [failsSyncFilter, hb1, hb2, hns, hsy]
        have hfk : failsKeyFilter nf sk kc dm = false := by
          simp [failsKeyFilter, hsy]
        simp [copyStepV, hbor, hns, hsy, hp, hfn, hfs, hfk]
      · replace hsy : syncSkip sk dm.key = false := by
          cases h : syncSkip sk dm.key
          · rfl
          · exact absurd h hsy
        by_cases hky : keySkip kc dm.key = true
        · left
          have hp : passesFilters nf sk kc dm = false := by
            simp [passesFilters, hky]
          have hfn : failsNsFilter nf dm = false := by
            simp [failsNsFilter, hns]
          have hfs : failsSyncFilter nf sk dm = false := by
            simp [failsSyncFilter, hsy]
          have hfk : failsKeyFilter nf sk kc dm = true := by
            simp [failsKeyFilter, hb1, hb2, hns, hsy, hky]
          simp [copyStepV, hbor, hns, hsy, hky, hp, hfn, hfs, hfk]
        · replace hky : keySkip kc dm.key = false := by
            cases h : keySkip kc dm.key
            · rfl
            · exact absurd h hky
          have hp : passesFilters nf sk kc dm = true := by
            simp [passesFilters, hb1, hb2, hns, hsy, hky]
          by_cases hgate : (st.rm (dm.ns, dm.key)).isSome = true ∧ ow = false
          · right; left
            have hstep : copyStepV nf kc sk ow dr rvid st dm =
                { st with total_skipped_exists := st.total_skipped_exists + 1 } := by
              simp [copyStepV, hbor, hns, hsy, hky, hgate]
            rw [hstep]
            exact ⟨hp, hgate.1, hgate.2, rfl, rfl, rfl, rfl, rfl, rfl, rfl, rfl, rfl, rfl⟩
          · by_cases hdr : dr = true
            · right; right; left
              have hor : ow = true ∨ (st.rm (dm.ns, dm.key)).isSome = false := by
                by_cases hex : (st.rm (dm.ns, dm.key)).isSome = true
                · left
                  cases how : ow
                  · exact absurd ⟨hex, how⟩ hgate
                  · rfl
                · right
                  cases h : (st.rm (dm.ns, dm.key)).isSome
                  · rfl
                  · exact absurd h hex
              have hstep : copyStepV nf kc sk ow dr rvid st dm =
                  { st with total_copied := st.total_copied + 1,
                            logs := st.logs ++ [.dryRunLog (.variant rvid)
                              (if (st.rm (dm.ns, dm.key)).isSome then "UPDATE" else "CREATE")
                              dm.ns dm.key] } := by
                simp [copyStepV, hbor, hns, hsy, hky, hgate, hdr]
              rw [hstep]
              exact ⟨hdr, hp, hor, rfl, rfl, rfl, rfl, rfl, rfl, rfl, rfl, rfl, rfl⟩
            · replace hdr : dr = false := by
                cases h : dr
                · rfl
                · exact absurd h hdr
              cases hrx : st.rm (dm.ns, dm.key) with
              | some rex =>
                right; right; right; left
                have how : ow = true := by
                  cases h : ow
                  · exact absurd ⟨by simp [hrx], h⟩ hgate
                  · rfl
                have hstep : copyStepV nf kc sk ow dr rvid st dm =
                    { st with total_copied := st.total_copied + 1,
                              rm := insertPair st.rm (dm.ns, dm.key) (writeResult (some rex) dm),
                              recv := insertPair st.recv (dm.ns, dm.key)
                                (writeResult (some rex) dm),
                              writes := st.writes ++
                                [.updateOp (.variant rvid) (dm.ns, dm.key)
                                  (writeResult (some rex) dm)] } := by
                  simp [copyStepV, hbor, hns, hsy, hky, hdr, hrx, how, writeResult]
                rw [hstep]
                exact ⟨hdr, hp, how, ⟨rex, rfl, rfl, rfl, rfl⟩,
                  rfl, rfl, rfl, rfl, rfl, rfl, rfl⟩
              | none =>
                right; right; right; right
                have hstep : copyStepV nf kc sk ow dr rvid st dm =
                    { st with total_copied := st.total_copied + 1,
                              recv := insertPair st.recv (dm.ns, dm.key) (writeResult none dm),
                              writes := st.writes ++
                                [.createOp (.variant rvid) (dm.ns, dm.key)
                                  (writeResult none dm)] } := by
                  simp [copyStepV, hbor, hns, hsy, hky, hdr, hrx, writeResult]
                rw [hstep]
                exact ⟨hdr, hp, rfl, rfl, rfl, rfl, rfl, rfl, rfl, rfl, rfl, rfl, rfl⟩

/-- Counter characterization of the variant-pass inner field loop. -/
lemma foldV_counts (nf kc sk : Option (List String)) (ow dr : Bool) (rvid : Nat) :
    ∀ (donor : List Metafield) (st : VFieldState),
      (∀ q, ((List.foldl (copyStepV nf kc sk ow dr rvid) st donor).rm q).isSome
          = (st.rm q).isSome) ∧
      (List.foldl (copyStepV nf kc sk ow dr rvid) st donor).total_skipped_ns
          = st.total_skipped_ns + donor.countP (failsNsFilter nf) ∧
      (List.foldl (copyStepV nf kc sk ow dr rvid) st donor).total_skipped_unsynced
          = st.total_skipped_unsynced + donor.countP (failsSyncFilter nf sk) ∧
      (List.foldl (copyStepV nf kc sk ow dr rvid) st donor).total_skipped_key
          = st.total_skipped_key + donor.countP (failsKeyFilter nf sk kc) ∧
      (List.foldl (copyStepV nf kc sk ow dr rvid) st donor).total_skipped_exists
          = st.total_skipped_exists + donor.countP
              (fun dm => passesFilters nf sk kc dm && isExisting st.rm dm && !ow) ∧
      (List.foldl (copyStepV nf kc sk ow dr rvid) st donor).total_copied
          = st.total_copied + donor.countP
              (fun dm => passesFilters nf sk kc dm && (ow || !isExisting st.rm dm)) ∧
      (List.foldl (copyStepV nf kc sk ow dr rvid) st donor).total_errors = st.total_errors := by
  intro donor
  induction donor with
  | nil => intro st; simp
  | cons dm rest ih =>
    intro st
    rw [List.foldl_cons]
    obtain ⟨ihrm, ihns, ihsy, ihky, ihse, ihcp, iherr⟩ :=
      ih (copyStepV nf kc sk ow dr rvid st dm)
    have hcases := copyStepV_cases nf kc sk ow dr rvid st dm _ rfl
    have hrm1 : ∀ q, ((copyStepV nf kc sk ow dr rvid st dm).rm q).isSome = (st.rm q).isSome := by
      intro q
      rcases hcases with ⟨_, h, _⟩ | ⟨_, _, _, h, _⟩ | ⟨_, _, _, h, _⟩ |
        ⟨_, _, _, ⟨rex, hrx, h, _⟩, _⟩ | ⟨_, _, _, h, _⟩
      · rw [h]
      · rw [h]
      · rw [h]
      · rw [h]
        by_cases hq : q = (dm.ns, dm.key)
        · subst hq; simp [insertPair, hrx]
        · simp [insertPair, hq]
      · rw [h]
    have hex1 : ∀ d : Metafield,
        isExisting (copyStepV nf kc sk ow dr rvid st dm).rm d = isExisting st.rm d := by
      intro d; simp [isExisting, hrm1]
    have hseP : rest.countP
        (fun d => passesFilters nf sk kc d &&
          isExisting (copyStepV nf kc sk ow dr rvid st dm).rm d && !ow)
        = rest.countP (fun d => passesFilters nf sk kc d && isExisting st.rm d && !ow) :=
      countP_congr' _ _ _ (fun d _ => by rw [hex1])
    have hcpP : rest.countP
        (fun d => passesFilters nf sk kc d &&
          (ow || !isExisting (copyStepV nf kc sk ow dr rvid st dm).rm d))
        = rest.countP (fun d => passesFilters nf sk kc d && (ow || !isExisting st.rm d)) :=
      countP_congr' _ _ _ (fun d _ => by rw [hex1])
    rw [hseP] at ihse
    rw [hcpP] at ihcp
    refine ⟨fun q => by rw [ihrm, hrm1], ?_, ?_, ?_, ?_, ?_, ?_⟩ <;>
      rcases hcases with ⟨hp, _, _, _, _, hc, hse, herr, hns, hsy, hky⟩ |
        ⟨hp, hex, how, _, _, _, _, hc, hse, herr, hns, hsy, hky⟩ |
        ⟨hdr, hp, hor, _, _, _, _, hc, hse, herr, hns, hsy, hky⟩ |
        ⟨hdr, hp, how, ⟨rex, hrx, _, _, _⟩, _, hc, hse, herr, hns, hsy, hky⟩ |
        ⟨hdr, hp, hrx, _, _, _, _, hc, hse, herr, hns, hsy, hky⟩
    -- total_skipped_ns
    · rw [ihns, hns, List.countP_cons]; omega
    · rw [ihns, hns, List.countP_cons, (fails_of_passes nf sk kc dm hp).1, ite_ff_zero]; omega
    · rw [ihns, hns, List.countP_cons, (fails_of_passes nf sk kc dm hp).1, ite_ff_zero]; omega
    · rw [ihns, hns, List.countP_cons, (fails_of_passes nf sk kc dm hp).1, ite_ff_zero]; omega
    · rw [ihns, hns, List.countP_cons, (fails_of_passes nf sk kc dm hp).1, ite_ff_zero]; omega
    -- total_skipped_unsynced
    · rw [ihsy, hsy, List.countP_cons]; omega
    · rw [ihsy, hsy, List.countP_cons, (fails_of_passes nf sk kc dm hp).2.1, ite_ff_zero]; omega
    · rw [ihsy, hsy, List.countP_cons, (fails_of_passes nf sk kc dm hp).2.1, ite_ff_zero]; omega
    · rw [ihsy, hsy, List.countP_cons, (fails_of_passes nf sk kc dm hp).2.1, ite_ff_zero]; omega
    · rw [ihsy, hsy, List.countP_cons, (fails_of_passes nf sk kc dm hp).2.1, ite_ff_zero]; omega
    -- total_skipped_key
    · rw [ihky, hky, List.countP_cons]; omega
    · rw [ihky, hky, List.countP_cons, (fails_of_passes nf sk kc dm hp).2.2, ite_ff_zero]; omega
    · rw [ihky, hky, List.countP_cons, (fails_of_passes nf sk kc dm hp).2.2, ite_ff_zero]; omega
    · rw [ihky, hky, List.countP_cons, (fails_of_passes nf sk kc dm hp).2.2, ite_ff_zero]; omega
    · rw [ihky, hky, List.countP_cons, (fails_of_passes nf sk kc dm hp).2.2, ite_ff_zero]; omega
    -- total_skipped_exists
    · have hval : (passesFilters nf sk kc dm && isExisting st.rm dm && !ow) = false := by
        simp [hp]
      rw [ihse, hse, List.countP_cons, hval, ite_ff_zero]; omega
    · have hval : (passesFilters nf sk kc dm && isExisting st.rm dm && !ow) = true := by
        simp [hp, isExisting, hex, how]
      rw [ihse, hse, List.countP_cons, hval, ite_tt_one]; omega
    · have hval : (passesFilters nf sk kc dm && isExisting st.rm dm && !ow) = false := by
        rcases hor with h | h
        · simp [h]
        · simp [isExisting, h]
      rw [ihse, hse, List.countP_cons, hval, ite_ff_zero]; omega
    · have hval : (passesFilters nf sk kc dm && isExisting st.rm dm && !ow) = false := by
        simp [how]
      rw [ihse, hse, List.countP_cons, hval, ite_ff_zero]; omega
    · have hval : (passesFilters nf sk kc dm && isExisting st.rm dm && !ow) = false := by
        simp [isExisting, hrx]
      rw [ihse, hse, List.countP_cons, hval, ite_ff_zero]; omega
    -- total_copied
    · have hval : (passesFilters nf sk kc dm && (ow || !isExisting st.rm dm)) = false := by
        simp [hp]
      rw [ihcp, hc, List.countP_cons, hval, ite_ff_zero]; omega
    · have hval : (passesFilters nf sk kc dm && (ow || !isExisting st.rm dm)) = false := by
        simp [hp, how, isExisting, hex]
      rw [ihcp, hc, List.countP_cons, hval, ite_ff_zero]; omega
    · have hval : (passesFilters nf sk kc dm && (ow || !isExisting st.rm dm)) = true := by
        rcases hor with h | h
        · simp [hp, h]
        · simp [hp, isExisting, h]
      rw [ihcp, hc, List.countP_cons, hval, ite_tt_one]; omega
    · have hval : (passesFilters nf sk kc dm && (ow || !isExisting st.rm dm)) = true := by
        simp [hp, how]
      rw [ihcp, hc, List.countP_cons, hval, ite_tt_one]; omega
    · have hval : (passesFilters nf sk kc dm && (ow || !isExisting st.rm dm)) = true := by
        simp [hp, isExisting, hrx]
      rw [ihcp, hc, List.countP_cons, hval, ite_tt_one]; omega
    -- total_errors
    · rw [iherr, herr]
    · rw [iherr, herr]
    · rw [iherr, herr]
    · rw [iherr, herr]
    · rw [iherr, herr]

/-- With `overwrite=false` the variant inner loop never updates. -/
lemma foldV_ow_false (nf kc sk : Option (List String)) (dr : Bool) (rvid : Nat) :
    ∀ (donor : List Metafield) (st : VFieldState),
      (List.foldl (copyStepV nf kc sk false dr rvid) st donor).rm = st.rm ∧
      (∀ q, (st.rm q).isSome = true →
        (List.foldl (copyStepV nf kc sk false dr rvid) st donor).recv q = st.recv q) ∧
      (∀ w, w ∈ (List.foldl (copyStepV nf kc sk false dr rvid) st donor).writes →
        w ∈ st.writes ∨ (w.isCreate = true ∧ st.rm w.pair = none)) := by
  intro donor
  induction donor with
  | nil => intro st; exact ⟨rfl, fun _ _ => rfl, fun _ hw => Or.inl hw⟩
  | cons dm rest ih =>
    intro st
    rw [List.foldl_cons]
    obtain ⟨ihrm, ihrecv, ihw⟩ := ih (copyStepV nf kc sk false dr rvid st dm)
    rcases copyStepV_cases nf kc sk false dr rvid st dm _ rfl with
      ⟨_, h1, h2, h3, _⟩ | ⟨_, _, _, h1, h2, h3, _⟩ | ⟨_, _, _, h1, h2, h3, _⟩ |
      ⟨_, _, how, _⟩ | ⟨_, hp, hrx, h1, h2, h3, _⟩
    · exact ⟨ihrm.trans h1,
        fun q hq => by rw [ihrecv q (by rw [h1]; exact hq), h2],
        fun w hw => by
          rcases ihw w hw with h | ⟨hc, hn⟩
          · rw [h3] at h; exact Or.inl h
          · rw [h1] at hn; exact Or.inr ⟨hc, hn⟩⟩
    · exact ⟨ihrm.trans h1,
        fun q hq => by rw [ihrecv q (by rw [h1]; exact hq), h2],
        fun w hw => by
          rcases ihw w hw with h | ⟨hc, hn⟩
          · rw [h3] at h; exact Or.inl h
          · rw [h1] at hn; exact Or.inr ⟨hc, hn⟩⟩
    · exact ⟨ihrm.trans h1,
        fun q hq => by rw [ihrecv q (by rw [h1]; exact hq), h2],
        fun w hw => by
          rcases ihw w hw with h | ⟨hc, hn⟩
          · rw [h3] at h; exact Or.inl h
          · rw [h1] at hn; exact Or.inr ⟨hc, hn⟩⟩
    · exact absurd how (by decide)
    · refine ⟨ihrm.trans h1, ?_, ?_⟩
      · intro q hq
        have hne : q ≠ (dm.ns, dm.key) := by
          intro h
          rw [h, hrx] at hq
          simp at hq
        rw [ihrecv q (by rw [h1]; exact hq), h2]
        exact insertPair_lookup_other st.recv (dm.ns, dm.key) q (writeResult none dm) hne
      · intro w hw
        rcases ihw w hw with h | ⟨hc, hn⟩
        · rw [h3] at h
          rcases List.mem_append.mp h with h | h
          · exact Or.inl h
          · rcases List.mem_singleton.mp h with rfl
            exact Or.inr ⟨rfl, hrx⟩
        · rw [h1] at hn; exact Or.inr ⟨hc, hn⟩

/-- Provenance of writes of the variant inner loop. -/
lemma foldV_writes (nf kc sk : Option (List String)) (ow dr : Bool) (rvid : Nat) :
    ∀ (donor : List Metafield) (st : VFieldState) (w : WriteOp),
      w ∈ (List.foldl (copyStepV nf kc sk ow dr rvid) st donor).writes →
      w ∈ st.writes ∨ ∃ dm, dm ∈ donor ∧ passesFilters nf sk kc dm = true ∧
        (ow = true ∨ isExisting st.rm dm = false) ∧ w.pair = (dm.ns, dm.key) := by
  intro donor
  induction donor with
  | nil => intro st w hw; exact Or.inl hw
  | cons dm rest ih =>
    intro st w hw
    rw [List.foldl_cons] at hw
    have hrm1 : ∀ q, ((copyStepV nf kc sk ow dr rvid st dm).rm q).isSome = (st.rm q).isSome :=
      (foldV_counts nf kc sk ow dr rvid [dm] st).1
    rcases ih (copyStepV nf kc sk ow dr rvid st dm) w hw with hmem | ⟨d, hd, hp, hgate, hpair⟩
    · rcases copyStepV_cases nf kc sk ow dr rvid st dm _ rfl with
        ⟨_, _, _, h3, _⟩ | ⟨_, _, _, _, _, h3, _⟩ | ⟨_, _, _, _, _, h3, _⟩ |
        ⟨_, hp, how, ⟨rex, hrx, _, _, h3⟩, _⟩ | ⟨_, hp, hrx, _, _, h3, _⟩
      · rw [h3] at hmem; exact Or.inl hmem
      · rw [h3] at hmem; exact Or.inl hmem
      · rw [h3] at hmem; exact Or.inl hmem
      · rw [h3] at hmem
        rcases List.mem_append.mp hmem with h | h
        · exact Or.inl h
        · right
          refine ⟨dm, List.mem_cons_self dm rest, hp, Or.inl how, ?_⟩
          rcases List.mem_singleton.mp h with rfl
          rfl
      · rw [h3] at hmem
        rcases List.mem_append.mp hmem with h | h
        · exact Or.inl h
        · right
          refine ⟨dm, List.mem_cons_self dm rest, hp, ?_, ?_⟩
          · right; simp [isExisting, hrx]
          · rcases List.mem_singleton.mp h with rfl
            rfl
    · right
      refine ⟨d, List.mem_cons_of_mem dm hd, hp, ?_, hpair⟩
      rcases hgate with h | h
      · exact Or.inl h
      · right
        rw [← h]
        simp [isExisting, hrm1]

/-! ## The duplicate-title copy block: dry-run versus live execution -/

lemma metaExecute_foldl_char (tid : Nat) (tgt : PairMap) :
    ∀ (actions : List MetaAction) (acc : List (String × String × String) × List WriteOp),
      actions.foldl
        (fun acc a =>
          let (status, w) := upsert_metafield tid a.ns a.key a.val a.typ tgt
          (acc.1 ++ [(a.ns, a.key, status)], acc.2 ++ [w])) acc
      = (acc.1 ++ actions.map
            (fun a => (a.ns, a.key, (upsert_metafield tid a.ns a.key a.val a.typ tgt).1)),
         acc.2 ++ actions.map (fun a => (upsert_metafield tid a.ns a.key a.val a.typ tgt).2)) := by
  intro actions
  induction actions with
  | nil => intro acc; simp
  | cons a rest ih =>
    intro acc
    rw [List.foldl_cons, ih]
    simp

lemma metaExecute_false_char (tid : Nat) (tgt : PairMap) (actions : List MetaAction) :
    metaExecute false tid actions tgt
      = (actions.map
            (fun a => (a.ns, a.key, (upsert_metafield tid a.ns a.key a.val a.typ tgt).1)),
         actions.map (fun a => (upsert_metafield tid a.ns a.key a.val a.typ tgt).2)) := by
  have h := metaExecute_foldl_char tid tgt actions ([], [])
  simpa [metaExecute] using h

lemma meta_dry_live_counts (tid : Nat) (tgt : PairMap) :
    ∀ donor_by : List Metafield,
      countStatus ((metaActions donor_by tgt).map
          (fun a => (a.ns, a.key, "would_" ++ a.action))) "would_create"
        = countCreates ((metaActions donor_by tgt).map
            (fun a => (upsert_metafield tid a.ns a.key a.val a.typ tgt).2)) ∧
      countStatus ((metaActions donor_by tgt).map
          (fun a => (a.ns, a.key, "would_" ++ a.action))) "would_update"
        = countUpdates ((metaActions donor_by tgt).map
            (fun a => (upsert_metafield tid a.ns a.key a.val a.typ tgt).2)) := by
  intro donor_by
  induction donor_by with
  | nil => exact ⟨rfl, rfl⟩
  | cons mf rest ih =>
    obtain ⟨ihc, ihu⟩ := ih
    cases hx : tgt (mf.ns, mf.key) with
    | some mfx =>
      have hact : metaActions (mf :: rest) tgt =
          { ns := mf.ns, key := mf.key, action := "update", typ := mf.type, val := mf.value }
            :: metaActions rest tgt := by
        simp [metaActions, hx]
      have hup : upsert_metafield tid mf.ns mf.key mf.value mf.type tgt
          = ("updated", .updateOp (.product tid) (mf.ns, mf.key)
              ⟨mf.ns, mf.key, mf.type, mf.value⟩) := by
        simp [upsert_metafield, hx]
      rw [hact]
      constructor
      · simp only [List.map_cons, countStatus, countCreates, List.countP_cons] at ihc ⊢
        rw [hup] at *
        simpa [WriteOp.isCreate, WriteOp.isUpdate] using ihc
      · simp only [List.map_cons, countStatus, countUpdates, List.countP_cons] at ihu ⊢
        rw [hup] at *
        simpa [WriteOp.isCreate, WriteOp.isUpdate] using ihu
    | none =>
      have hact : metaActions (mf :: rest) tgt =
          { ns := mf.ns, key := mf.key, action := "create", typ := mf.type, val := mf.value }
            :: metaActions rest tgt := by
        simp [metaActions, hx]
      have hup : upsert_metafield tid mf.ns mf.key mf.value mf.type tgt
          = ("created", .createOp (.product tid) (mf.ns, mf.key)
              ⟨mf.ns, mf.key, mf.type, mf.value⟩) := by
        simp [upsert_metafield, hx]
      rw [hact]
      constructor
      · simp only [List.map_cons, countStatus, countCreates, List.countP_cons] at ihc ⊢
        rw [hup] at *
        simpa [WriteOp.isCreate, WriteOp.isUpdate] using ihc
      · simp only [List.map_cons, countStatus, countUpdates, List.countP_cons] at ihu ⊢
        rw [hup] at *
        simpa [WriteOp.isCreate, WriteOp.isUpdate] using ihu

/-! ## C1–C4: the copy passes -/

lemma copy_product_metafields_eq (donor : List Metafield) (rm0 : PairMap) (rid : Nat)
    (kc nfp : Option (List String)) (ow os dr : Bool) :
    copy_product_metafields donor rm0 rid kc nfp ow os dr
      = List.foldl (copyStepP (nsFilterNorm nfp) kc (syncedOf os donor) ow dr rid)
          { total := 0, copied := 0, skipped_exists := 0, skipped_ns := 0, skipped_key := 0,
            skipped_unsynced := 0, errors := 0, rm := rm0, recv := rm0,
            writes := [], logs := [] } donor := rfl

lemma copy_variant_fields_pair_eq (nfp kc : Option (List String)) (ow os dr : Bool)
    (dmfs : List Metafield) (rvid : Nat) (recv_map : PairMap) :
    copy_variant_fields_pair nfp kc ow os dr dmfs rvid recv_map
      = List.foldl (copyStepV nfp kc (syncedOf os dmfs) ow dr rvid)
          { total_copied := 0, total_skipped_exists := 0, total_skipped_ns := 0,
            total_skipped_key := 0, total_skipped_unsynced := 0, total_errors := 0,
            rm := recv_map, recv := recv_map, writes := [], logs := [] } dmfs := rfl

/-- C1 (amended): in both copy passes, for every donor metafield with
non-blank namespace and key, the field is copied (counted-and-written, or
logged in dry run) if and only if it passes the namespace allow-list, the
only-synced filter, and the key filter, AND the overwrite gate admits it
(its pair is absent from the receiver or overwrite is enabled); a field
failing exactly one of the three filters is counted in the corresponding
skipped counter; a field passing all three but blocked by the gate is
counted as skipped_existing; and every write issued addresses the pair of a
donor field that passed the filters and the gate. -/
theorem filter_composition
    (donor : List Metafield) (rm0 : PairMap) (rid : Nat)
    (kc nf : Option (List String)) (ow os dr : Bool)
    (dvar_mfs : List Metafield) (rvid : Nat) (recv_map : PairMap) :
    ((copy_product_metafields donor rm0 rid kc nf ow os dr).skipped_ns
        = donor.countP (failsNsFilter (nsFilterNorm nf)) ∧
      (copy_product_metafields donor rm0 rid kc nf ow os dr).skipped_unsynced
        = donor.countP (failsSyncFilter (nsFilterNorm nf) (syncedOf os donor)) ∧
      (copy_product_metafields donor rm0 rid kc nf ow os dr).skipped_key
        = donor.countP (failsKeyFilter (nsFilterNorm nf) (syncedOf os donor) kc) ∧
      (copy_product_metafields donor rm0 rid kc nf ow os dr).total
        = donor.countP (passesFilters (nsFilterNorm nf) (syncedOf os donor) kc) ∧
      (copy_product_metafields donor rm0 rid kc nf ow os dr).skipped_exists
        = donor.countP (fun dm => passesFilters (nsFilterNorm nf) (syncedOf os donor) kc dm
            && isExisting rm0 dm && !ow) ∧
      (copy_product_metafields donor rm0 rid kc nf ow os dr).copied
        = donor.countP (fun dm => passesFilters (nsFilterNorm nf) (syncedOf os donor) kc dm
            && (ow || !isExisting rm0 dm)) ∧
      (copy_product_metafields donor rm0 rid kc nf ow os dr).errors = 0 ∧
      (copy_product_metafields donor rm0 rid kc nf ow os dr).writes.all
        (fun w => donor.any (fun dm =>
          passesFilters (nsFilterNorm nf) (syncedOf os donor) kc dm
            && (ow || !isExisting rm0 dm) && decide (w.pair = (dm.ns, dm.key)))) = true) ∧
    ((copy_variant_fields_pair (nsFilterNorm nf) kc ow os dr dvar_mfs rvid
          recv_map).total_skipped_ns
        = dvar_mfs.countP (failsNsFilter (nsFilterNorm nf)) ∧
      (copy_variant_fields_pair (nsFilterNorm nf) kc ow os dr dvar_mfs rvid
          recv_map).total_skipped_unsynced
        = dvar_mfs.countP (failsSyncFilter (nsFilterNorm nf) (syncedOf os dvar_mfs)) ∧
      (copy_variant_fields_pair (nsFilterNorm nf) kc ow os dr dvar_mfs rvid
          recv_map).total_skipped_key
        = dvar_mfs.countP (failsKeyFilter (nsFilterNorm nf) (syncedOf os dvar_mfs) kc) ∧
      (copy_variant_fields_pair (nsFilterNorm nf) kc ow os dr dvar_mfs rvid
          recv_map).total_skipped_exists
        = dvar_mfs.countP (fun dm => passesFilters (nsFilterNorm nf) (syncedOf os dvar_mfs) kc dm
            && isExisting recv_map dm && !ow) ∧
      (copy_variant_fields_pair (nsFilterNorm nf) kc ow os dr dvar_mfs rvid
          recv_map).total_copied
        = dvar_mfs.countP (fun dm => passesFilters (nsFilterNorm nf) (syncedOf os dvar_mfs) kc dm
            && (ow || !isExisting recv_map dm)) ∧
      (copy_variant_fields_pair (nsFilterNorm nf) kc ow os dr dvar_mfs rvid
          recv_map).total_errors = 0 ∧
      (copy_variant_fields_pair (nsFilterNorm nf) kc ow os dr dvar_mfs rvid recv_map).writes.all
        (fun w => dvar_mfs.any (fun dm =>
          passesFilters (nsFilterNorm nf) (syncedOf os dvar_mfs) kc dm
            && (ow || !isExisting recv_map dm) && decide (w.pair = (dm.ns, dm.key)))) = true) := by
  constructor
  · have hP := foldP_counts (nsFilterNorm nf) kc (syncedOf os donor) ow dr rid donor
      { total := 0, copied := 0, skipped_exists := 0, skipped_ns := 0, skipped_key := 0,
        skipped_unsynced := 0, errors := 0, rm := rm0, recv := rm0, writes := [], logs := [] }
    obtain ⟨_, htot, hns, hsy, hky, hse, hcp, herr⟩ := hP
    rw [copy_product_metafields_eq]
    refine ⟨by simpa using hns, by simpa using hsy, by simpa using hky, by simpa using htot,
      by simpa using hse, by simpa using hcp, by simpa using herr, ?_⟩
    rw [List.all_eq_true]
    intro w hwmem
    rcases foldP_writes (nsFilterNorm nf) kc (syncedOf os donor) ow dr rid donor _ w hwmem with
      h | ⟨dm, hdm, hp, hg, hpair⟩
    · simp at h
    · refine List.any_eq_true.mpr ⟨dm, hdm, ?_⟩
      rcases hg with h | h
      · simp [hp, h, hpair]
      · simp only [isExisting] at h ⊢
        simp [hp, h, hpair]
  · have hV := foldV_counts (nsFilterNorm nf) kc (syncedOf os dvar_mfs) ow dr rvid dvar_mfs
      { total_copied := 0, total_skipped_exists := 0, total_skipped_ns := 0,
        total_skipped_key := 0, total_skipped_unsynced := 0, total_errors := 0,
        rm := recv_map, recv := recv_map, writes := [], logs := [] }
    obtain ⟨_, hns, hsy, hky, hse, hcp, herr⟩ := hV
    rw [copy_variant_fields_pair_eq]
    refine ⟨by simpa using hns, by simpa using hsy, by simpa using hky,
      by simpa using hse, by simpa using hcp, by simpa using herr, ?_⟩
    rw [List.all_eq_true]
    intro w hwmem
    rcases foldV_writes (nsFilterNorm nf) kc (syncedOf os dvar_mfs) ow dr rvid dvar_mfs _
        w hwmem with h | ⟨dm, hdm, hp, hg, hpair⟩
    · simp at h
    · refine List.any_eq_true.mpr ⟨dm, hdm, ?_⟩
      rcases hg with h | h
      · simp [hp, h, hpair]
      · simp only [isExisting] at h ⊢
        simp [hp, h, hpair]

/-- C1 counterexample: with no filters supplied, a donor field that passes
all three filters is nevertheless not copied — neither written nor logged —
when its (namespace, key) already exists on the receiver and overwrite is
off; it lands in skipped_existing.  The claim's "copied iff the three
filters pass" is therefore false as stated. -/
theorem filter_composition_counterexample :
    passesFilters (nsFilterNorm none) (syncedOf false [⟨"custom", "color", "string", .pystr "red"⟩])
        none ⟨"custom", "color", "string", .pystr "red"⟩ = true ∧
    (copy_product_metafields [⟨"custom", "color", "string", .pystr "red"⟩]
        (product_metafield_map [⟨"custom", "color", "string", .pystr "blue"⟩])
        7 none none false false false).copied = 0 ∧
    (copy_product_metafields [⟨"custom", "color", "string", .pystr "red"⟩]
        (product_metafield_map [⟨"custom", "color", "string", .pystr "blue"⟩])
        7 none none false false false).writes = [] ∧
    (copy_product_metafields [⟨"custom", "color", "string", .pystr "red"⟩]
        (product_metafield_map [⟨"custom", "color", "string", .pystr "blue"⟩])
        7 none none false false false).logs = [] ∧
    (copy_product_metafields [⟨"custom", "color", "string", .pystr "red"⟩]
        (product_metafield_map [⟨"custom", "color", "string", .pystr "blue"⟩])
        7 none none false false false).skipped_exists = 1 :=
  ⟨rfl, rfl, rfl, rfl, rfl⟩

/-- C2: enabling dry run issues zero writes to the remote client and leaves
the receiver state untouched, while producing exactly the same per-field
create-versus-update classification counts as the identical live run — in
the `copy_product_metafields` pass (dry-run log lines versus live writes)
and in the duplicate-title copy block of src/copy_product_meta_fields.py
(`would_create`/`would_update` reports versus live POST/PUT requests). -/
theorem dry_run_no_writes_same_counts
    (donor : List Metafield) (rm0 : PairMap) (rid : Nat)
    (kc nf : Option (List String)) (ow os : Bool)
    (donor_by : List Metafield) (tgt_by : PairMap) (tid : Nat) :
    (copy_product_metafields donor rm0 rid kc nf ow os true).writes = [] ∧
    (∀ q, (copy_product_metafields donor rm0 rid kc nf ow os true).recv q = rm0 q) ∧
    countAction (copy_product_metafields donor rm0 rid kc nf ow os true).logs "CREATE"
      = countCreates (copy_product_metafields donor rm0 rid kc nf ow os false).writes ∧
    countAction (copy_product_metafields donor rm0 rid kc nf ow os true).logs "UPDATE"
      = countUpdates (copy_product_metafields donor rm0 rid kc nf ow os false).writes ∧
    (metaExecute true tid (metaActions donor_by tgt_by) tgt_by).2 = [] ∧
    countStatus (metaExecute true tid (metaActions donor_by tgt_by) tgt_by).1 "would_create"
      = countCreates (metaExecute false tid (metaActions donor_by tgt_by) tgt_by).2 ∧
    countStatus (metaExecute true tid (metaActions donor_by tgt_by) tgt_by).1 "would_update"
      = countUpdates (metaExecute false tid (metaActions donor_by tgt_by) tgt_by).2 := by
  have hdry := foldP_dry (nsFilterNorm nf) kc (syncedOf os donor) ow rid donor
    { total := 0, copied := 0, skipped_exists := 0, skipped_ns := 0, skipped_key := 0,
      skipped_unsynced := 0, errors := 0, rm := rm0, recv := rm0, writes := [], logs := [] }
  have hdl := foldP_dry_live (nsFilterNorm nf) kc (syncedOf os donor) ow rid donor
    { total := 0, copied := 0, skipped_exists := 0, skipped_ns := 0, skipped_key := 0,
      skipped_unsynced := 0, errors := 0, rm := rm0, recv := rm0, writes := [], logs := [] }
    { total := 0, copied := 0, skipped_exists := 0, skipped_ns := 0, skipped_key := 0,
      skipped_unsynced := 0, errors := 0, rm := rm0, recv := rm0, writes := [], logs := [] }
    (fun _ => rfl)
  refine ⟨?_, ?_, ?_, ?_, ?_, ?_, ?_⟩
  · rw [copy_product_metafields_eq]
    exact hdry.2.2
  · intro q
    rw [copy_product_metafields_eq, hdry.2.1]
  · have h := hdl.1
    rw [copy_product_metafields_eq, copy_product_metafields_eq]
    simpa [countAction, countCreates] using h
  · have h := hdl.2
    rw [copy_product_metafields_eq, copy_product_metafields_eq]
    simpa [countAction, countUpdates] using h
  · rfl
  · rw [metaExecute_false_char]
    exact (meta_dry_live_counts tid tgt_by donor_by).1
  · rw [metaExecute_false_char]
    exact (meta_dry_live_counts tid tgt_by donor_by).2

/-- C3: with `overwrite=false`, in both copy passes, every receiver field
present before the pass keeps its value (the pass only ever creates at
previously empty slots); every donor field passing the filters whose pair
already exists on the receiver is counted as skipped_existing; every write
is a create addressed at a slot empty before the pass — so no write targets
an existing pair; and slots not named by any donor field are untouched. -/
theorem overwrite_gate_preserves_existing
    (donor : List Metafield) (rm0 : PairMap) (rid : Nat)
    (kc nf : Option (List String)) (os dr : Bool)
    (dvar_mfs : List Metafield) (rvid : Nat) (recv_map : PairMap) :
    ((∀ q, rm0 q = none ∨
        (copy_product_metafields donor rm0 rid kc nf false os dr).recv q = rm0 q) ∧
      (copy_product_metafields donor rm0 rid kc nf false os dr).skipped_exists
        = donor.countP (fun dm => passesFilters (nsFilterNorm nf) (syncedOf os donor) kc dm
            && isExisting rm0 dm) ∧
      (copy_product_metafields donor rm0 rid kc nf false os dr).writes.all
        (fun w => w.isCreate && (rm0 w.pair).isNone) = true ∧
      (∀ q, donor.any (fun dm => decide ((dm.ns, dm.key) = q)) = true ∨
        (copy_product_metafields donor rm0 rid kc nf false os dr).recv q = rm0 q)) ∧
    ((∀ q, recv_map q = none ∨
        (copy_variant_fields_pair (nsFilterNorm nf) kc false os dr dvar_mfs rvid
          recv_map).recv q = recv_map q) ∧
      (copy_variant_fields_pair (nsFilterNorm nf) kc false os dr dvar_mfs rvid
          recv_map).total_skipped_exists
        = dvar_mfs.countP (fun dm => passesFilters (nsFilterNorm nf) (syncedOf os dvar_mfs) kc dm
            && isExisting recv_map dm) ∧
      (copy_variant_fields_pair (nsFilterNorm nf) kc false os dr dvar_mfs rvid
          recv_map).writes.all (fun w => w.isCreate && (recv_map w.pair).isNone) = true) := by
  constructor
  · have how := foldP_ow_false (nsFilterNorm nf) kc (syncedOf os donor) dr rid donor
      { total := 0, copied := 0, skipped_exists := 0, skipped_ns := 0, skipped_key := 0,
        skipped_unsynced := 0, errors := 0, rm := rm0, recv := rm0, writes := [], logs := [] }
    have hcnt := foldP_counts (nsFilterNorm nf) kc (syncedOf os donor) false dr rid donor
      { total := 0, copied := 0, skipped_exists := 0, skipped_ns := 0, skipped_key := 0,
        skipped_unsynced := 0, errors := 0, rm := rm0, recv := rm0, writes := [], logs := [] }
    refine ⟨?_, ?_, ?_, ?_⟩
    · intro q
      cases hq : rm0 q with
      | none => exact Or.inl rfl
      | some mf =>
        right
        rw [copy_product_metafields_eq]
        exact (how.2.1 q (by simp [hq])).trans hq
    · rw [copy_product_metafields_eq]
      have h := hcnt.2.2.2.2.2.1
      have hp : donor.countP
          (fun dm => passesFilters (nsFilterNorm nf) (syncedOf os donor) kc dm
            && isExisting rm0 dm && !false)
          = donor.countP (fun dm => passesFilters (nsFilterNorm nf) (syncedOf os donor) kc dm
            && isExisting rm0 dm) :=
        countP_congr' _ _ _ (fun d _ => by simp)
      rw [← hp]
      simpa using h
    · rw [copy_product_metafields_eq, List.all_eq_true]
      intro w hwmem
      rcases how.2.2 w hwmem with h | ⟨hc, hn⟩
      · simp at h
      · have hn' : rm0 w.pair = none := hn
        simp [hc, hn']
    · intro q
      cases hany : donor.any (fun dm => decide ((dm.ns, dm.key) = q)) with
      | true => exact Or.inl rfl
      | false =>
        right
        rw [copy_product_metafields_eq]
        have hnone : ∀ dm ∈ donor, (dm.ns, dm.key) ≠ q := by
          intro dm hdm
          intro hcon
          have : donor.any (fun dm => decide ((dm.ns, dm.key) = q)) = true :=
            List.any_eq_true.mpr ⟨dm, hdm, by simp [hcon]⟩
          rw [hany] at this
          exact absurd this (by decide)
        exact (foldP_frame (nsFilterNorm nf) kc (syncedOf os donor) false dr rid donor _
          q hnone).1
  · have how := foldV_ow_false (nsFilterNorm nf) kc (syncedOf os dvar_mfs) dr rvid dvar_mfs
      { total_copied := 0, total_skipped_exists := 0, total_skipped_ns := 0,
        total_skipped_key := 0, total_skipped_unsynced := 0, total_errors := 0,
        rm := recv_map, recv := recv_map, writes := [], logs := [] }
    have hcnt := foldV_counts (nsFilterNorm nf) kc (syncedOf os dvar_mfs) false dr rvid dvar_mfs
      { total_copied := 0, total_skipped_exists := 0, total_skipped_ns := 0,
        total_skipped_key := 0, total_skipped_unsynced := 0, total_errors := 0,
        rm := recv_map, recv := recv_map, writes := [], logs := [] }
    refine ⟨?_, ?_, ?_⟩
    · intro q
      cases hq : recv_map q with
      | none => exact Or.inl rfl
      | some mf =>
        right
        rw [copy_variant_fields_pair_eq]
        exact (how.2.1 q (by simp [hq])).trans hq
    · rw [copy_variant_fields_pair_eq]
      have h := hcnt.2.2.2.2.1
      have hp : dvar_mfs.countP
          (fun dm => passesFilters (nsFilterNorm nf) (syncedOf os dvar_mfs) kc dm
            && isExisting recv_map dm && !false)
          = dvar_mfs.countP
            (fun dm => passesFilters (nsFilterNorm nf) (syncedOf os dvar_mfs) kc dm
              && isExisting recv_map dm) :=
        countP_congr' _ _ _ (fun d _ => by simp)
      rw [← hp]
      simpa using h
    · rw [copy_variant_fields_pair_eq, List.all_eq_true]
      intro w hwmem
      rcases how.2.2 w hwmem with h | ⟨hc, hn⟩
      · simp at h
      · have hn' : recv_map w.pair = none := hn
        simp [hc, hn']

/-- C4: running a copy pass twice with identical donor state, identical
configuration and `overwrite=true` leaves the receiver state after pass 2
exactly as it was after pass 1, and the second pass issues no creates: every
(owner, namespace, key) triple that already has a metafield resolves to an
update, so no duplicate metafield is ever created. -/
theorem copy_pass_idempotent
    (donor : List Metafield) (rm0 : PairMap) (rid : Nat)
    (kc nf : Option (List String)) (os dr : Bool)
    (hnd : (donor.map (fun dm => (dm.ns, dm.key))).Nodup) :
    (∀ q, (copy_product_metafields donor
        (copy_product_metafields donor rm0 rid kc nf true os dr).recv
        rid kc nf true os dr).recv q
      = (copy_product_metafields donor rm0 rid kc nf true os dr).recv q) ∧
    (∀ w ∈ (copy_product_metafields donor
        (copy_product_metafields donor rm0 rid kc nf true os dr).recv
        rid kc nf true os dr).writes, w.isUpdate = true) := by
  cases dr with
  | true =>
    have hdry := foldP_dry (nsFilterNorm nf) kc (syncedOf os donor) true rid donor
      { total := 0, copied := 0, skipped_exists := 0, skipped_ns := 0, skipped_key := 0,
        skipped_unsynced := 0, errors := 0,
        rm := (copy_product_metafields donor rm0 rid kc nf true os true).recv,
        recv := (copy_product_metafields donor rm0 rid kc nf true os true).recv,
        writes := [], logs := [] }
    constructor
    · intro q
      rw [copy_product_metafields_eq donor
        (copy_product_metafields donor rm0 rid kc nf true os true).recv, hdry.2.1]
    · intro w hw
      rw [copy_product_metafields_eq donor
        (copy_product_metafields donor rm0 rid kc nf true os true).recv, hdry.2.2] at hw
      simp at hw
  | false =>
    have hchar := foldP_char (nsFilterNorm nf) kc (syncedOf os donor) rid donor
      { total := 0, copied := 0, skipped_exists := 0, skipped_ns := 0, skipped_key := 0,
        skipped_unsynced := 0, errors := 0, rm := rm0, recv := rm0, writes := [], logs := [] }
      hnd
    have hidem := foldP_idem (nsFilterNorm nf) kc (syncedOf os donor) rid donor
      { total := 0, copied := 0, skipped_exists := 0, skipped_ns := 0, skipped_key := 0,
        skipped_unsynced := 0, errors := 0,
        rm := (copy_product_metafields donor rm0 rid kc nf true os false).recv,
        recv := (copy_product_metafields donor rm0 rid kc nf true os false).recv,
        writes := [], logs := [] }
      (by
        intro dm hdm hp
        refine ⟨writeResult (rm0 (dm.ns, dm.key)) dm, ?_, writeResult_stable _ dm⟩
        rw [copy_product_metafields_eq]
        exact hchar dm hdm hp)
      rfl
    constructor
    · intro q
      rw [copy_product_metafields_eq donor
        (copy_product_metafields donor rm0 rid kc nf true os false).recv, hidem.1]
    · intro w hw
      rw [copy_product_metafields_eq donor
        (copy_product_metafields donor rm0 rid kc nf true os false).recv] at hw
      rcases hidem.2.2 w hw with h | h
      · simp at h
      · exact h

theorem copy_pass_idempotent_witness :
    (copy_product_metafields [⟨"custom", "weight", "integer", .pystr "500"⟩]
        (copy_product_metafields [⟨"custom", "weight", "integer", .pystr "500"⟩]
          (fun _ => none) 7 none none true false false).recv
        7 none none true false false).recv ("custom", "weight")
      = (copy_product_metafields [⟨"custom", "weight", "integer", .pystr "500"⟩]
          (fun _ => none) 7 none none true false false).recv ("custom", "weight") :=
  (copy_pass_idempotent [⟨"custom", "weight", "integer", .pystr "500"⟩]
    (fun _ => none) 7 none none false false (by simp)).1 ("custom", "weight")

end NordiskSync
